import Mathlib

/-!
Verification development for the market-structure analysis engine and the
prediction validation pipeline of the `ai-prediction-dashboard` backend.

The Python sources are shallowly embedded over `ℚ` (Python floats become exact
rationals; float rendering in f-strings is modelled by computable formatters).
Dictionaries with optional / nullable numeric fields are embedded with explicit
`missing | null | num` values so that Python's `dict.get` defaults and the
`TypeError` raised by `float(None)` are both captured.  Raised exceptions are
modelled with `Except Draft`, the error value carrying the partially mutated
result, matching CPython's in-place dict mutation followed by the blanket
`except` handler that returns `result`.
-/

namespace AIPD

/-! ## Candle data (`data_fetcher.Kline`) -/

/-- One OHLCV candle. -/
structure Kline where
  open_ : ℚ
  high : ℚ
  low : ℚ
  close : ℚ
  volume : ℚ
deriving DecidableEq, Repr

/-- Last `n` elements of a list, Python's `xs[-n:]` for `n ≥ 1`. -/
def lastN (n : Nat) (xs : List ℚ) : List ℚ := xs.drop (xs.length - n)

/-! ## Indicator calculator (`app/services/analyzer.py`, class TechnicalAnalyzer)

`TechnicalAnalyzer.calculate_rsi`, `calculate_bollinger_bands` and
`calculate_atr` are embedded verbatim; `math.sqrt` (only its nonnegativity is
relevant to any claim) is replaced by the computable nonnegative
square-root approximation `sqrtQ`. -/

namespace TechnicalAnalyzer

/-- Computable stand-in for `math.sqrt` on ℚ: `sqrt (n/d) = sqrt (n*d) / d`
with `Nat.sqrt` as integer square root.  Only the facts `sqrtQ q ≥ 0`
are used in the development. -/
def sqrtQ (q : ℚ) : ℚ :=
  if q ≤ 0 then 0 else (Nat.sqrt (q.num.toNat * q.den) : ℚ) / (q.den : ℚ)

/-- Consecutive differences `prices[i] - prices[i-1]`, i = 1 .. len-1. -/
def changes (prices : List ℚ) : List ℚ :=
  List.zipWith (fun prev cur => cur - prev) prices prices.tail

/-- `TechnicalAnalyzer.calculate_rsi` (analyzer.py:85-115): simple averages of
the last `period` gains and losses, no Wilder smoothing. -/
def calculate_rsi (prices : List ℚ) (period : Nat) : ℚ :=
  if prices.length < period + 1 then 50
  else
    let chs := changes prices
    let gains := chs.map (fun c => if c > 0 then c else 0)
    let losses := chs.map (fun c => if c > 0 then 0 else |c|)
    if gains.length < period then 50
    else
      let avg_gain := (lastN period gains).sum / (period : ℚ)
      let avg_loss := (lastN period losses).sum / (period : ℚ)
      if avg_loss = 0 then 100
      else
        let rs := avg_gain / avg_loss
        100 - (100 / (1 + rs))

/-- `TechnicalAnalyzer.calculate_bollinger_bands` (analyzer.py:148-168),
returning `(upper, middle, lower)`. -/
def calculate_bollinger_bands (prices : List ℚ) (period : Nat) (std_dev : ℚ) :
    ℚ × ℚ × ℚ :=
  if prices.length < period then
    let price := (prices.getLast?).getD 0
    (price * 1.02, price, price * 0.98)
  else
    let window := lastN period prices
    let sma := window.sum / (period : ℚ)
    let variance := (window.map (fun p => (p - sma) ^ 2)).sum / (period : ℚ)
    let std := sqrtQ variance
    (sma + std_dev * std, sma, sma - std_dev * std)

/-- Per-candle true ranges, `max(high-low, |high-prevClose|, |low-prevClose|)`
for i = 1 .. len-1 (analyzer.py:176-187). -/
def trueRanges (klines : List Kline) : List ℚ :=
  List.zipWith
    (fun prev cur =>
      max (cur.high - cur.low) (max |cur.high - prev.close| |cur.low - prev.close|))
    klines klines.tail

/-- `TechnicalAnalyzer.calculate_atr` (analyzer.py:170-192): simple average of
the last `period` true ranges (short series fall back to the mean of all). -/
def calculate_atr (klines : List Kline) (period : Nat) : ℚ :=
  if klines.length < 2 then 0
  else
    let trs := trueRanges klines
    if trs.length < period then
      if trs = [] then 0 else trs.sum / (trs.length : ℚ)
    else
      (lastN period trs).sum / (period : ℚ)

end TechnicalAnalyzer

/-! ## Wilder reference recurrence and the aggregator's fallback smoothing

`wilderSmooth` is the reference recurrence named by the specification
(`avgₙ = avgₙ₋₁ + (xₙ − avgₙ₋₁)/period`, seeded with the simple average of the
first `period` samples).  `ewmAdjMean` embeds the pandas
`Series.ewm(alpha=…).mean()` (adjust=True, the pandas default) used by the
fallback branch of `data_aggregator.calculate_indicators` (lines 1084-1127):
the last output value is the `(1−α)`-power weighted mean of the whole series.
`min_periods=14` only turns early outputs into NaN and does not change the
final value on series of length ≥ 14. -/

/-- Wilder-style smoothing: seed with the simple mean of the first `period`
values, then apply `avg ← avg + (x − avg)/period` for the rest. -/
def wilderSmooth (xs : List ℚ) (period : Nat) : ℚ :=
  let seed := (xs.take period).sum / (period : ℚ)
  (xs.drop period).foldl (fun avg x => avg + (x - avg) / (period : ℚ)) seed

/-- Wilder reference RSI: Wilder-smoothed average gain / average loss. -/
def wilderRSI (prices : List ℚ) (period : Nat) : ℚ :=
  let chs := TechnicalAnalyzer.changes prices
  let gains := chs.map (fun c => if c > 0 then c else 0)
  let losses := chs.map (fun c => if c > 0 then 0 else |c|)
  let avg_gain := wilderSmooth gains period
  let avg_loss := wilderSmooth losses period
  if avg_loss = 0 then 100 else 100 - (100 / (1 + avg_gain / avg_loss))

/-- Final value of pandas `ewm(alpha=α).mean()` with `adjust=True`:
`Σ (1−α)^(n−1−i)·xᵢ / Σ (1−α)^(n−1−i)`. -/
def ewmAdjMean (α : ℚ) (xs : List ℚ) : ℚ :=
  let ws := xs.reverse.enum
  ((ws.map (fun p => (1 - α) ^ p.1 * p.2)).sum) /
    ((ws.map (fun p => (1 - α) ^ p.1)).sum)

/-- The pandas true-range series of `calculate_indicators` (data_aggregator.py
lines 1121-1125): row 0 has NaN shifted closes, and `max(axis=1)` skips NaN,
so the first element is `high₀ − low₀`. -/
def trPandas (klines : List Kline) : List ℚ :=
  match klines with
  | [] => []
  | k0 :: _ => (k0.high - k0.low) :: TechnicalAnalyzer.trueRanges klines

/-- ATR of the fallback (`TA_AVAILABLE = False`) branch of
`data_aggregator.calculate_indicators` (line 1127): adjusted EWM of the
true-range series with α = 1/14. -/
def aggregatorATR (klines : List Kline) : ℚ :=
  ewmAdjMean (1 / 14) (trPandas klines)

/-! ## Volume profile engine (`data_aggregator._calculate_vpvr`, lines 1390-1440)

The candle frame is a `List Kline`.  `np.argmax` / `np.argmin` return the index
of the first maximum / minimum; `idxMax` / `idxMin` compute exactly that.  The
function body cannot raise (all operations are total here), so the `try` /
`except` wrapper is the identity. -/

/-- Index of the first maximum of a list (`np.argmax`); 0 on `[]`. -/
def idxMax : List ℚ → Nat
  | [] => 0
  | [_] => 0
  | x :: y :: t =>
    let j := idxMax (y :: t)
    if (y :: t).getD j 0 > x then j + 1 else 0

/-- Index of the first minimum of a list (`np.argmin`); 0 on `[]`. -/
def idxMin : List ℚ → Nat
  | [] => 0
  | [_] => 0
  | x :: y :: t =>
    let j := idxMin (y :: t)
    if (y :: t).getD j 0 < x then j + 1 else 0

/-- Minimum of the candle lows, `df['low'].min()` (0 on empty frames). -/
def dfLowMin (df : List Kline) : ℚ :=
  match df.map (·.low) with
  | [] => 0
  | x :: xs => xs.foldl min x

/-- Maximum of the candle highs, `df['high'].max()` (0 on empty frames). -/
def dfHighMax (df : List Kline) : ℚ :=
  match df.map (·.high) with
  | [] => 0
  | x :: xs => xs.foldl max x

/-- Bin edge `i` of `np.linspace(low, high, bins + 1)`. -/
def binEdge (low high : ℚ) (bins i : Nat) : ℚ :=
  low + (i : ℚ) * (high - low) / (bins : ℚ)

/-- Bin `i` receives candle `c`'s volume iff `edge i ≤ c.high ∧ edge (i+1) ≥ c.low`
(the `hl_diff == 0` branch of the source computes the same mask). -/
def binMask (low high : ℚ) (bins : Nat) (c : Kline) (i : Nat) : Bool :=
  decide (binEdge low high bins i ≤ c.high ∧ c.low ≤ binEdge low high bins (i + 1))

/-- Add one candle to the running volume profile: its volume is split equally
over all bins its `[low, high]` interval overlaps (lines 1408-1418). -/
def addCandle (low high : ℚ) (bins : Nat) (profile : List ℚ) (c : Kline) : List ℚ :=
  let cnt := ((List.range bins).filter (binMask low high bins c)).length
  if cnt = 0 then profile
  else profile.enum.map
    (fun p => if binMask low high bins c p.1 then p.2 + c.volume / (cnt : ℚ) else p.2)

/-- The aggregated volume profile over `bins` equal-width bins. -/
def volumeProfile (df : List Kline) (bins : Nat) : List ℚ :=
  let low := dfLowMin df
  let high := dfHighMax df
  df.foldl (addCandle low high bins) (List.replicate bins 0)

/-- Result record of `_calculate_vpvr`. -/
structure VPVRResult where
  hvn : Option ℚ
  lvn : Option ℚ
deriving DecidableEq, Repr

/-- `data_aggregator._calculate_vpvr` (lines 1390-1440). -/
def _calculate_vpvr (df : List Kline) (bins : Nat) : VPVRResult :=
  if df.length < 5 then ⟨none, none⟩
  else
    let low := dfLowMin df
    let high := dfHighMax df
    if high = low then ⟨none, none⟩
    else
      let profile := volumeProfile df bins
      let max_idx := idxMax profile
      let hvn := (binEdge low high bins max_idx + binEdge low high bins (max_idx + 1)) / 2
      let current_price := ((df.map (·.close)).getLast?).getD 0
      let nearbyIdx := (List.range bins).filter
        (fun i => decide (current_price * 0.95 ≤ binEdge low high bins i ∧
                          binEdge low high bins (i + 1) ≤ current_price * 1.05))
      let lvn :=
        if nearbyIdx ≠ [] then
          let nearby_vols := nearbyIdx.map (fun i => profile.getD i 0)
          let k := idxMin nearby_vols
          let actual_idx := nearbyIdx.getD k 0
          (binEdge low high bins actual_idx + binEdge low high bins (actual_idx + 1)) / 2
        else
          let min_idx := idxMin profile
          (binEdge low high bins min_idx + binEdge low high bins (min_idx + 1)) / 2
      ⟨some hvn, some lvn⟩

/-- Modelled from the spec: the value-area construction of §4.3 is absent from
the sources under `src/` — `_calculate_vpvr` reports only `hvn`/`lvn`, while
its consumers (`deepseek_analyst.py` lines 436 and 707-708) read
`vpvr['poc']`, `vpvr['val']`, `vpvr['vah']` of the missing producer.  Following
the spec's words: start at the POC bin, and repeatedly extend the closed bin
interval to whichever open neighboring bin carries more volume (the upper one
on ties), accumulating volume until at least 70% of the total is enclosed,
stopping early if no neighbors remain.  Fuel-indexed; `valueArea` supplies
enough fuel to absorb every bin. -/
def growVA (vols : List ℚ) (target : ℚ) :
    Nat → Nat → Nat → ℚ → (Nat × Nat × ℚ)
  | 0, lo, hi, acc => (lo, hi, acc)
  | fuel + 1, lo, hi, acc =>
    let n := vols.length
    if target ≤ acc then (lo, hi, acc)
    else if lo = 0 ∧ n ≤ hi + 1 then (lo, hi, acc)
    else if hi + 1 < n ∧ (lo = 0 ∨ vols.getD (lo - 1) 0 ≤ vols.getD (hi + 1) 0) then
      growVA vols target fuel lo (hi + 1) (acc + vols.getD (hi + 1) 0)
    else
      growVA vols target fuel (lo - 1) hi (acc + vols.getD (lo - 1) 0)

/-- Modelled from the spec: value area grown from the POC bin; returns the
low/high bin indices and the enclosed volume. -/
def valueArea (vols : List ℚ) (pocIdx : Nat) : Nat × Nat × ℚ :=
  growVA vols (7 / 10 * vols.sum) vols.length pocIdx pocIdx (vols.getD pocIdx 0)

/-! ## Prediction validator (`app/engines/deepseek_analyst.py`)

`_validate_and_fix_prediction` (lines 861-1142), `_validate_key_levels`
(1144-1203) and `_sanitize_reasoning` (1205-1286) operate on untrusted JSON
dictionaries.  Numeric dictionary entries are embedded as
`JVal = missing | null | num`, so that `dict.get(k, default)` and the
`TypeError` of `float(None)` are both represented; list-valued entries
analogously.  A raised exception carries the partially mutated result
(CPython mutates `result` in place and the blanket handler returns it), hence
`Except Draft Draft`. -/

/-- A numeric dictionary entry: absent key, JSON `null`, or a number. -/
inductive JVal where
  | missing : JVal
  | null : JVal
  | num : ℚ → JVal
deriving DecidableEq, Repr

/-- `float(result.get(key, default))`: absent keys take the default, `null`
raises (`none`), numbers convert. -/
def JVal.toFloatD : JVal → ℚ → Option ℚ
  | .missing, d => some d
  | .null, _ => none
  | .num x, _ => some x

/-- A list-of-numbers entry (`take_profit`): absent key, JSON `null`, or a
list whose elements may themselves be `null`. -/
inductive JListQ where
  | missing : JListQ
  | null : JListQ
  | items : List (Option ℚ) → JListQ
deriving DecidableEq, Repr

/-- Sequence a list of optional rationals; `none` if any element is `null`. -/
def seqOpt : List (Option ℚ) → Option (List ℚ)
  | [] => some []
  | none :: _ => none
  | some v :: t => (seqOpt t).map (v :: ·)

/-- `[float(x) for x in result.get(key, [])]`: absent keys give `[]`, a `null`
entry raises (iterating `None`), a `null` element raises (`float(None)`). -/
def JListQ.toFloats : JListQ → Option (List ℚ)
  | .missing => some []
  | .null => none
  | .items xs => seqOpt xs

/-- A list-of-strings entry (`reasoning` / `risk_warning`): absent key, a
non-list value, or an actual list of strings. -/
inductive JListS where
  | missing : JListS
  | notlist : JListS
  | items : List String → JListS
deriving DecidableEq, Repr

/-- The guard `if key not in result or not isinstance(result[key], list):
result[key] = []`. -/
def JListS.ensureList : JListS → JListS
  | .items xs => .items xs
  | _ => .items []

/-- The list produced by `ensureList` (used where the source guards first and
then inserts). -/
def JListS.asList : JListS → List String
  | .items xs => xs
  | _ => []

/-- Unguarded `result[key].insert(0, s)`: raises (`none`) unless an actual
list is present. -/
def JListS.insert0 (s : String) : JListS → Option JListS
  | .items xs => some (.items (s :: xs))
  | _ => none

/-- Unguarded `result[key].append(s)`: raises (`none`) unless an actual list
is present. -/
def JListS.append1 (s : String) : JListS → Option JListS
  | .items xs => some (.items (xs ++ [s]))
  | _ => none

/-- The `entry_zone` sub-dictionary. -/
structure EntryZone where
  low : JVal
  high : JVal
deriving DecidableEq, Repr

/-- The `key_levels` sub-dictionary. -/
structure KeyLevels where
  current_price : JVal
  strong_support : JVal
  strong_resistance : JVal
  weak_support : JVal
  weak_resistance : JVal
deriving DecidableEq, Repr

/-- An empty `key_levels` dictionary. -/
def KeyLevels.empty : KeyLevels :=
  ⟨.missing, .missing, .missing, .missing, .missing⟩

/-- The draft recommendation dictionary (`result`).  `prediction` and
`summary` are read through `result.get(key, "")`, so their absent case is
collapsed onto `""`; `entry_zone = none` covers the falsy cases (absent key,
`null`, empty dict); `key_levels = none` covers an absent key or a non-dict
value. -/
structure Draft where
  prediction : String
  confidence : JVal
  entry_zone : Option EntryZone
  stop_loss : JVal
  take_profit : JListQ
  reasoning : JListS
  risk_warning : JListS
  key_levels : Option KeyLevels
  summary : String
deriving DecidableEq, Repr

/-- An SMC order block from `context["smc"]["order_blocks"]`. -/
structure OrderBlock where
  type : String
  top : ℚ
  bottom : ℚ
deriving DecidableEq, Repr

/-- The market context handed to the validator.  It is produced internally by
`DataAggregator.to_context` and is well-formed, so its numeric fields are
plain rationals; `vpvr_lvn`/`vpvr_poc` model `context["vpvr"].get(...)`
(`poc_hvn` is read at line 1054 but never used); `signal_conflicts` is the
conflict list of `_detect_signal_conflicts`, of which the validator uses only
the length (also rendered into warning strings). -/
structure Ctx where
  current_price : ℚ
  atr : ℚ
  vpvr_lvn : Option ℚ
  vpvr_poc : Option ℚ
  signal_conflicts : Nat
  order_blocks : List OrderBlock
deriving DecidableEq, Repr

/-- Python local variables of the validator body. -/
structure Locals where
  is_long : Bool
  is_short : Bool
  entry_low : ℚ
  entry_high : ℚ
  sl : ℚ
  tps : List ℚ
deriving DecidableEq, Repr

/-! ### String helpers: substring scan and float rendering -/

/-- Literal-prefix test on character lists. -/
def chPre : List Char → List Char → Bool
  | [], _ => true
  | _ :: _, [] => false
  | a :: as, b :: bs => a == b && chPre as bs

/-- Substring containment, Python's `needle in hay`. -/
def chSub (needle : List Char) : List Char → Bool
  | [] => chPre needle []
  | c :: t => chPre needle (c :: t) || chSub needle t

/-- `any(x in p for x in keys)`. -/
def hasAny (p : String) (keys : List String) : Bool :=
  keys.any (fun k => chSub k.data p.data)

/-- ASCII case lowering (`str.lower()`; the prediction texts scanned here are
ASCII keywords and Chinese characters, which `str.lower()` leaves unchanged). -/
def chLower (c : Char) : Char :=
  if 'A' ≤ c ∧ c ≤ 'Z' then Char.ofNat (c.toNat + 32) else c

/-- `s.lower()`. -/
def pyLower (s : String) : String := String.mk (s.data.map chLower)

/-- `str.replace` on character lists: replace every non-overlapping occurrence
left to right.  Fuel-indexed (callers pass the text length; every replacement
consumes at least one character since the patterns used are nonempty). -/
def replChars (pat rep : List Char) : Nat → List Char → List Char
  | 0, hay => hay
  | _ + 1, [] => []
  | fuel + 1, c :: t =>
    if pat ≠ [] ∧ chPre pat (c :: t) then
      rep ++ replChars pat rep fuel ((c :: t).drop pat.length)
    else c :: replChars pat rep fuel t

/-- `s.replace(pat, rep)` (for the nonempty patterns used in this file). -/
def pyReplace (s pat rep : String) : String :=
  String.mk (replChars pat.data rep.data s.data.length s.data)

/-- Stand-in for Python float rendering in f-strings.  It is injective on ℚ,
which is all the development relies on (outputs are only ever compared with
other outputs of the same embedding). -/
def fmtQ (q : ℚ) : String :=
  if q.den = 1 then toString q.num ++ ".0"
  else toString q.num ++ "/" ++ toString q.den

/-- Stand-in for the f-string format `{x:.2f}` (two decimals, rounding to the
nearest half-up; no statement in this file depends on tie behavior). -/
def fmt2 (q : ℚ) : String :=
  let n : Int := (q * 100 + 1 / 2).floor
  let a := n.natAbs
  let fr := a % 100
  (if n < 0 then "-" else "") ++ toString (a / 100) ++ "." ++
    (if fr < 10 then "0" else "") ++ toString fr

/-! ### The injected narrative / warning lines -/

/-- Line prepended to `reasoning` on a direction conflict (line 921). -/
def conflictReasonLine (p : String) (tp0 : ℚ) : String :=
  "⚠️ 系统检测到方向冲突: AI文本判断与价位逻辑矛盾(文本:" ++ p ++ ", TP:" ++ fmtQ tp0 ++
    ")，已自动降级为震荡/观望。"

/-- Line prepended to `risk_warning` on a direction conflict (line 924). -/
def conflictWarnLine : String :=
  "方向冲突已触发自动降级，建议观望等待信号明确"

/-- Line prepended to `reasoning` when the total RRR is below 1.0 (line 1041). -/
def rrrDowngradeLine (rrr : ℚ) : String :=
  "⚠️ 严重风险: 总盈亏比(" ++ fmt2 rrr ++ ")不足1.0，策略无效，已自动降级。"

/-- Line prepended to `reasoning` when the final target is lifted to the 1.6:1
point (line 1047). -/
def rrrAdjustLine : String :=
  "💡 策略优化: 已自动调整止盈位以确保收益风险比 > 1.5。"

/-- Line appended to `reasoning` when the stop collides with the LVN vacuum
zone (line 1066). -/
def lvnLine : String :=
  "🛡️ 止损保护: 检测到原止损点处于成交真空区(LVN)，已自动修正以防瞬间扫损。"

/-- Line prepended when the current price already crossed TP1, long case
(line 1082). -/
def tp1TouchLongLine (cp tp1 : ℚ) : String :=
  "⚠️ 提示: 现价 (" ++ fmtQ cp ++ ") 已触及或突破目标 TP1 (" ++ fmtQ tp1 ++
    ")，建议等待回调入场。"

/-- Line prepended when the current price already crossed TP1, short case
(line 1084). -/
def tp1TouchShortLine (cp tp1 : ℚ) : String :=
  "⚠️ 提示: 现价 (" ++ fmtQ cp ++ ") 已触及或突破目标 TP1 (" ++ fmtQ tp1 ++
    ")，建议等待反弹入场。"

/-- Warning appended for ≥ 3 signal conflicts (line 1119). -/
def confWarn3 (n : Nat) (conf : ℚ) : String :=
  "指标信号冲突较多(" ++ toString n ++ "个), 置信度已自动降至" ++ fmtQ conf ++ "%"

/-- Warning appended for 2 signal conflicts (line 1125). -/
def confWarn2 (n : Nat) (conf : ℚ) : String :=
  "存在" ++ toString n ++ "个信号冲突, 置信度已降至" ++ fmtQ conf ++ "%"

/-- Direction keywords scanned in the lowered prediction text (line 903-904). -/
def longWords : List String := ["涨", "多", "bull", "buy", "long"]

/-- Negated-long keywords. -/
def longNegWords : List String := ["不看涨", "not bull"]

/-- Short keywords. -/
def shortWords : List String := ["跌", "空", "bear", "sell", "short"]

/-- Negated-short keywords. -/
def shortNegWords : List String := ["不看跌", "not bear"]

/-! ### The validator body, stage by stage

The stages below partition `_validate_and_fix_prediction` along the comment
banners of the source; `validateBody` chains them in source order. -/

/-- Lines 936-959: the anti-chase entry correction.  A long zone whose top
exceeds `current_price * 1.0005` is pulled back to end at the current price
(and to `[0.995 * cp, cp]` when even its bottom is above the price); the
short side mirrors this. -/
def pickEntries (is_long is_short : Bool) (el1 eh1 current_price : ℚ) : ℚ × ℚ :=
  if is_long then
    if eh1 > current_price * 1.0005 then
      if el1 > current_price then (current_price * 0.995, current_price)
      else (el1, current_price)
    else (el1, eh1)
  else if is_short then
    if el1 < current_price * 0.9995 then
      if eh1 < current_price then (current_price, current_price * 1.005)
      else (current_price, eh1)
    else (el1, eh1)
  else (el1, eh1)

/-- Lines 871-961: field extraction, direction resolution (price levels first,
then text keywords, conflict ⇒ downgrade), anti-chase entry clamp, and the
write-back of the normalized `entry_zone` / `stop_loss` / `take_profit`. -/
def directionAndAntiChase (r0 : Draft) (ctx : Ctx) : Except Draft (Draft × Locals) :=
  let p := pyLower r0.prediction
  let current_price := ctx.current_price
  let ez := r0.entry_zone.getD ⟨.num current_price, .num current_price⟩
  match ez.low.toFloatD current_price with
  | none => .error r0
  | some el0 =>
  match ez.high.toFloatD current_price with
  | none => .error r0
  | some eh0 =>
  let el1 := if el0 > eh0 then eh0 else el0
  let eh1 := if el0 > eh0 then el0 else eh0
  let avg_entry := (el1 + eh1) / 2
  match r0.take_profit.toFloats with
  | none => .error r0
  | some tps =>
  match r0.stop_loss.toFloatD 0 with
  | none => .error r0
  | some sl =>
  let is_price_long := match tps with | t0 :: _ => decide (t0 > avg_entry) | [] => false
  let is_price_short := match tps with | t0 :: _ => decide (t0 < avg_entry) | [] => false
  let is_text_long := hasAny p longWords && !(hasAny p longNegWords)
  let is_text_short := hasAny p shortWords && !(hasAny p shortNegWords)
  let step :=
    if !is_price_long && !is_price_short then
      (is_text_long, is_text_short, r0)
    else if (is_price_long && is_text_short) || (is_price_short && is_text_long) then
      (false, false,
        { r0 with
          reasoning := .items (conflictReasonLine p (tps.headD 0) :: r0.reasoning.asList),
          risk_warning := .items (conflictWarnLine :: r0.risk_warning.asList) })
    else (is_price_long, is_price_short, r0)
  let is_long := step.1
  let is_short := step.2.1
  let r1 := step.2.2
  let r2 := { r1 with
    prediction := if is_long then "看涨" else if is_short then "看跌" else "震荡" }
  let entries := pickEntries is_long is_short el1 eh1 current_price
  let entry_low := entries.1
  let entry_high := entries.2
  let r3 := { r2 with
    entry_zone := some ⟨.num entry_low, .num entry_high⟩,
    stop_loss := .num sl,
    take_profit := .items (tps.map some) }
  .ok (r3, ⟨is_long, is_short, entry_low, entry_high, sl, tps⟩)

/-- Lines 966-1011: re-read the stored numbers, default target ladder for an
empty list, stop-loss relocation (1.5×ATR, or ±2% without ATR) and the
directional target filter with its ±2/4/6% regeneration fallback. -/
def fixStopAndTargets (r3 : Draft) (ctx : Ctx) (loc : Locals) : Except Draft (Draft × Locals) :=
  let avg_entry := (loc.entry_low + loc.entry_high) / 2
  match r3.stop_loss.toFloatD 0 with
  | none => .error r3
  | some sl0 =>
  match r3.take_profit.toFloats with
  | none => .error r3
  | some tps0 =>
  let tps := if tps0 = [] then
      (if loc.is_long then [avg_entry * 1.02] else [avg_entry * 0.98]) else tps0
  if loc.is_long then
    let sl := if sl0 ≥ loc.entry_low then
        (if ctx.atr > 0 then loc.entry_low - ctx.atr * 1.5 else loc.entry_low * 0.98)
      else sl0
    let r4 := if sl0 ≥ loc.entry_low then { r3 with stop_loss := .num sl } else r3
    let valid_tps := tps.filter (fun tp => tp > loc.entry_high)
    let stored := (if valid_tps = [] then [avg_entry * 1.02, avg_entry * 1.04, avg_entry * 1.06]
      else valid_tps).map some
    let r5 := { r4 with take_profit := .items stored }
    .ok (r5, { loc with sl := sl, tps := tps })
  else if loc.is_short then
    let sl := if sl0 ≤ loc.entry_high then
        (if ctx.atr > 0 then loc.entry_high + ctx.atr * 1.5 else loc.entry_high * 1.02)
      else sl0
    let r4 := if sl0 ≤ loc.entry_high then { r3 with stop_loss := .num sl } else r3
    let valid_tps := tps.filter (fun tp => tp < loc.entry_low)
    let stored := (if valid_tps = [] then [avg_entry * 0.98, avg_entry * 0.96, avg_entry * 0.94]
      else valid_tps).map some
    let r5 := { r4 with take_profit := .items stored }
    .ok (r5, { loc with sl := sl, tps := tps })
  else
    .ok (r3, { loc with sl := sl0, tps := tps })

/-- Lines 1013-1028 ("1:1 减仓协议"): with positive risk distance, the Python
local `tps` — still the unfiltered list of line 968-971 — gets its head
overwritten with the 1:1 point and is stored wholesale, replacing the filtered
list of the previous stage.  Returns `(draft, locals, risk_dist, avg_entry)`. -/
def forceTP1 (r : Draft) (loc : Locals) : Except Draft (Draft × Locals × ℚ × ℚ) :=
  match r.stop_loss.toFloatD 0 with
  | none => .error r
  | some sl =>
  let avg_entry := (loc.entry_low + loc.entry_high) / 2
  let risk_dist := |avg_entry - sl|
  if risk_dist > 0 then
    let tp1_target := if loc.is_long then avg_entry + risk_dist else avg_entry - risk_dist
    let tps := match loc.tps with
      | [] => [tp1_target, tp1_target + risk_dist * 0.5, tp1_target + risk_dist * 1.5]
      | _ :: rest => tp1_target :: rest
    .ok ({ r with take_profit := .items (tps.map some) },
         { loc with sl := sl, tps := tps }, risk_dist, avg_entry)
  else
    .ok (r, { loc with sl := sl }, risk_dist, avg_entry)

/-- `result["take_profit"][-1]` without conversion: the raw last element, or
`none` where Python would raise (absent key, empty list, `null` element). -/
def lastTP (r : Draft) : Option ℚ :=
  match r.take_profit with
  | .items xs =>
    match xs.getLast? with
    | some (some v) => some v
    | _ => none
  | _ => none

/-- `result["take_profit"][-1] = v` (in-place last-element update). -/
def setLastTP (r : Draft) (v : ℚ) : Draft :=
  match r.take_profit with
  | .items xs => { r with take_profit := .items (xs.dropLast ++ [some v]) }
  | _ => r

/-- Lines 1030-1049, the RRR gate: computed on the **last** target; below 1.0
downgrade to 震荡 and return from the function; in [1.0, 1.5) lift the last
target to the 1.6:1 point.  All exceptions inside this block are swallowed by
its own `except` (notably the `KeyError` of `result["reasoning"]` when
`reasoning` is absent — the downgrade of the prediction survives, but the
`return` is never reached and processing continues).  The boolean is the
early-return flag. -/
def rrrCheck (r : Draft) (avg_entry risk_dist : ℚ) (is_long : Bool) : Draft × Bool :=
  match lastTP r with
  | none => (r, false)
  | some final_tp =>
    let reward := |final_tp - avg_entry|
    if risk_dist > 0 then
      let rrr := reward / risk_dist
      if rrr < 1.5 then
        if rrr < 1 then
          let rA := { r with prediction := "震荡" }
          match rA.reasoning.insert0 (rrrDowngradeLine rrr) with
          | some rs => ({ rA with reasoning := rs }, true)
          | none => (rA, false)
        else
          let rB := setLastTP r
            (if is_long then avg_entry + risk_dist * 1.6 else avg_entry - risk_dist * 1.6)
          match rB.reasoning.insert0 rrrAdjustLine with
          | some rs => ({ rB with reasoning := rs }, false)
          | none => (rB, false)
      else (r, false)
    else (r, false)

/-- Lines 1051-1066, the LVN vacuum-zone stop protection.  The unguarded
`result["reasoning"].append` can raise out to the blanket handler, after the
stop has already been moved. -/
def lvnGuard (r : Draft) (ctx : Ctx) (loc : Locals) (avg_entry : ℚ) : Except Draft Draft :=
  match ctx.vpvr_lvn with
  | none => .ok r
  | some lvn =>
    if lvn ≠ 0 ∧ loc.sl ≠ 0 then
      let atr := if ctx.atr = 0 then avg_entry * 0.01 else ctx.atr
      if |loc.sl - lvn| < atr * 0.5 then
        let sl := if loc.is_long then min loc.sl lvn - atr * 0.5 else max loc.sl lvn + atr * 0.5
        let rA := { r with stop_loss := .num sl }
        match rA.reasoning.append1 lvnLine with
        | some rs => .ok { rA with reasoning := rs }
        | none => .error rA
      else .ok r
    else .ok r

/-- Lines 1068-1075, the SMC order-block anchor note on `summary`. -/
def smcAnchor (r : Draft) (ctx : Ctx) (loc : Locals) : Draft :=
  match ctx.order_blocks.find? (fun ob =>
      ((ob.type == "bullish" && loc.is_long) || (ob.type == "bearish" && loc.is_short)) &&
      decide (loc.entry_low ≤ ob.top) && decide (ob.bottom ≤ loc.entry_high)) with
  | some _ => { r with summary := "🎯 [SMC锚定] " ++ r.summary ++ " (入场区域与机构订单块重合)" }
  | none => r

/-- Lines 1077-1084, the timeliness notice when the current price already
reached TP1 (unguarded `reasoning.insert`, may raise outward). -/
def tp1TouchNotice (r : Draft) (ctx : Ctx) (loc : Locals) : Except Draft Draft :=
  match r.take_profit.toFloats with
  | none => .error r
  | some tps_final =>
  match tps_final with
  | [] => .ok r
  | tp1 :: _ =>
    if loc.is_long ∧ ctx.current_price ≥ tp1 then
      match r.reasoning.insert0 (tp1TouchLongLine ctx.current_price tp1) with
      | some rs => .ok { r with reasoning := rs }
      | none => .error r
    else if loc.is_short ∧ ctx.current_price ≤ tp1 then
      match r.reasoning.insert0 (tp1TouchShortLine ctx.current_price tp1) with
      | some rs => .ok { r with reasoning := rs }
      | none => .error r
    else .ok r

/-- Lines 1086-1097, the 5×ATR hallucination clamp: any target farther than
5×ATR from the entry midpoint is replaced by `avg ± 3×ATR×(rank+1)`. -/
def tpDistanceClamp (r : Draft) (ctx : Ctx) (loc : Locals) (avg_entry : ℚ) : Draft :=
  match r.take_profit.toFloats with
  | none => r
  | some tps_final =>
    if ctx.atr > 0 ∧ tps_final ≠ [] then
      let clamped := tps_final.enum.map (fun p =>
        if |p.2 - avg_entry| > ctx.atr * 5 then
          (if loc.is_long then avg_entry + ctx.atr * 3 * ((p.1 : ℚ) + 1)
           else avg_entry - ctx.atr * 3 * ((p.1 : ℚ) + 1))
        else p.2)
      { r with take_profit := .items (clamped.map some) }
    else r

/-- Lines 1099-1107, the entry-zone width clamp: a zone wider than 2×ATR is
recentred and shrunk to 0.5×ATR. -/
def entryWidthClamp (r : Draft) (ctx : Ctx) (loc : Locals) : Draft :=
  let entry_width := |loc.entry_high - loc.entry_low|
  if ctx.atr > 0 ∧ entry_width > ctx.atr * 2 then
    let mid_entry := (loc.entry_low + loc.entry_high) / 2
    let zone : EntryZone := ⟨.num (mid_entry - ctx.atr * 0.25), .num (mid_entry + ctx.atr * 0.25)⟩
    { r with entry_zone := some zone }
  else r

/-- Lines 1109-1130, confidence calibration against the conflict count.  The
branch conditions short-circuit on the truthiness of the conflict list, so a
`null` confidence only raises when at least one conflict fired.  Only the ≥3
and =2 branches append a warning; the 1-conflict branch fires only above 85
and appends nothing. -/
def confidenceCalibrate (r : Draft) (ctx : Ctx) : Except Draft Draft :=
  let rW := { r with risk_warning := r.risk_warning.ensureList }
  let n := ctx.signal_conflicts
  if n = 0 then .ok rW
  else
    match rW.confidence.toFloatD 50 with
    | none => .error rW
    | some confidence =>
      if n ≥ 3 ∧ confidence > 60 then
        let c := min confidence 60
        let ws := rW.risk_warning.asList ++ [confWarn3 n c]
        .ok { rW with confidence := .num c, risk_warning := .items ws }
      else if n ≥ 2 ∧ confidence > 70 then
        let c := min confidence 70
        let ws := rW.risk_warning.asList ++ [confWarn2 n c]
        .ok { rW with confidence := .num c, risk_warning := .items ws }
      else if n ≥ 1 ∧ confidence > 85 then
        .ok { rW with confidence := .num (min confidence 80) }
      else .ok rW

/-- `_validate_key_levels` (lines 1144-1203): overwrite `current_price` with
the true value, then push positive supports below and positive resistances
above the current price (±5% strong, ±2% weak).  The local `kl` aliases
`result["key_levels"]` when that key holds a dict, so mutations made before an
internal exception survive the `except` (`bail`); the pivot cross-check of
lines 1186-1196 only logs and is stateless. -/
def _validate_key_levels (r : Draft) (ctx : Ctx) : Draft :=
  let current_price := ctx.current_price
  if current_price = 0 then r
  else
    let aliased := r.key_levels.isSome
    let kl0 := r.key_levels.getD KeyLevels.empty
    let kl1 := { kl0 with current_price := .num current_price }
    let bail := fun (kl : KeyLevels) =>
      if aliased then { r with key_levels := some kl } else r
    match kl1.strong_support.toFloatD 0 with
    | none => bail kl1
    | some strong_support =>
    match kl1.strong_resistance.toFloatD 0 with
    | none => bail kl1
    | some strong_resistance =>
    match kl1.weak_support.toFloatD 0 with
    | none => bail kl1
    | some weak_support =>
    match kl1.weak_resistance.toFloatD 0 with
    | none => bail kl1
    | some weak_resistance =>
    let kl2 := if strong_support > 0 ∧ strong_support ≥ current_price then
        { kl1 with strong_support := .num (current_price * 0.95) } else kl1
    let kl3 := if weak_support > 0 ∧ weak_support ≥ current_price then
        { kl2 with weak_support := .num (current_price * 0.98) } else kl2
    let kl4 := if strong_resistance > 0 ∧ strong_resistance ≤ current_price then
        { kl3 with strong_resistance := .num (current_price * 1.05) } else kl3
    let kl5 := if weak_resistance > 0 ∧ weak_resistance ≤ current_price then
        { kl4 with weak_resistance := .num (current_price * 1.02) } else kl4
    { r with key_levels := some kl5 }

/-! ### `_sanitize_reasoning` (lines 1205-1286)

`fix_price_logic` applies three regex passes.  The regexes are embedded as
hand-rolled greedy matchers with the same backtracking priorities as `re`
(the leftmost alternative of `(支撑|支撑位)` first, optional groups greedy);
`re.finditer` is lazy over the string object it was called on, so each pass
collects all matches of its input text first and then folds the
`str.replace` calls (each of which replaces **every** occurrence). -/

/-- Type of `\s` on the ASCII range (the texts handled here contain no other
whitespace). -/
def isWsChar (c : Char) : Bool :=
  c = ' ' || c = '\t' || c = '\n' || c = '\r'

/-- Character class `[\d,]`. -/
def isDigitOrComma (c : Char) : Bool := c.isDigit || c = ','

/-- Eat a literal: `some rest` when `lit` is a prefix of `cs`. -/
def eatLit (lit cs : List Char) : Option (List Char) :=
  if chPre lit cs then some (cs.drop lit.length) else none

/-- Match `\s*([\d,]+\.?\d*)` greedily; returns `(consumed, group)`. -/
def numTail (cs : List Char) : Option (List Char × List Char) :=
  let ws := cs.takeWhile isWsChar
  let cs1 := cs.drop ws.length
  let ds := cs1.takeWhile isDigitOrComma
  if ds = [] then none
  else
    let cs2 := cs1.drop ds.length
    let dotPart := match cs2 with
      | '.' :: t => (['.'], t)
      | _ => (([] : List Char), cs2)
    let ds2 := dotPart.2.takeWhile Char.isDigit
    some (ws ++ ds ++ dotPart.1 ++ ds2, ds ++ dotPart.1 ++ ds2)

/-- Match `(pre)?main(sfx|sfxW)?\s*([\d,]+\.?\d*)` at the current position:
the shape of patterns 1 and 2 of `fix_price_logic`.  Returns
`(whole match, digit group)`. -/
def matchBreak (pre main sfx sfxW cs : List Char) : Option (List Char × List Char) :=
  let afterMain : List Char → Option (List Char × List Char) := fun rest =>
    (do let r1 ← eatLit sfx rest
        let p ← numTail r1
        pure (sfx ++ p.1, p.2))
    <|> (do let r1 ← eatLit sfxW rest
            let p ← numTail r1
            pure (sfxW ++ p.1, p.2))
    <|> (do let p ← numTail rest
            pure (p.1, p.2))
  (do let r0 ← eatLit pre cs
      let r1 ← eatLit main r0
      let p ← afterMain r1
      pure (pre ++ main ++ p.1, p.2))
  <|> (do let r1 ← eatLit main cs
          let p ← afterMain r1
          pure (main ++ p.1, p.2))

/-- Match pattern 3, `(?<!前)支撑(位)?[：:]?\s*([\d,]+\.?\d*)`, at the current
position given the preceding character. -/
def matchSupportAt (prev : Option Char) (cs : List Char) : Option (List Char × List Char) :=
  if prev = some '前' then none
  else
    let colonNum : List Char → Option (List Char × List Char) := fun rest =>
      (match rest with
       | c :: t =>
         if c = '：' || c = ':' then (numTail t).map (fun p => (c :: p.1, p.2)) else none
       | [] => none)
      <|> numTail rest
    (do let r1 ← eatLit "支撑".data cs
        ((do let r2 ← eatLit "位".data r1
             let p ← colonNum r2
             pure ("支撑位".data ++ p.1, p.2))
         <|> (do let p ← colonNum r1
                 pure ("支撑".data ++ p.1, p.2))))

/-- Scan a text left to right, collecting non-overlapping matches
(`re.finditer`): on a match, resume after its end; otherwise advance one
character.  Fuel-indexed (every step consumes fuel; callers pass the text
length, enough because every match here is nonempty). -/
def scanAll (m : Option Char → List Char → Option (List Char × List Char)) :
    Nat → Option Char → List Char → List (List Char × List Char)
  | 0, _, _ => []
  | _ + 1, _, [] => []
  | fuel + 1, prev, c :: t =>
    match m prev (c :: t) with
    | some mt => mt :: scanAll m fuel mt.1.getLast? ((c :: t).drop mt.1.length)
    | none => scanAll m fuel (some c) t

/-- All matches of a pattern in a string, as `(whole, group)` strings. -/
def findMatches (m : Option Char → List Char → Option (List Char × List Char))
    (s : String) : List (String × String) :=
  (scanAll m s.data.length none s.data).map (fun p => (String.mk p.1, String.mk p.2))

/-- Digit-list value. -/
def digitsVal (l : List Char) : Nat :=
  l.foldl (fun a c => a * 10 + (c.toNat - 48)) 0

/-- `float(price_str)` on a comma-stripped digit group: `d*(.d*)?` with at
least one digit; `ValueError` (`none`) otherwise. -/
def pyFloatOfClean (l : List Char) : Option ℚ :=
  let intPart := l.takeWhile Char.isDigit
  let rest := l.drop intPart.length
  match rest with
  | [] => if intPart = [] then none else some (digitsVal intPart : ℚ)
  | '.' :: frac =>
    if frac.all Char.isDigit then
      if intPart = [] ∧ frac = [] then none
      else some ((digitsVal intPart : ℚ) + (digitsVal frac : ℚ) / (10 : ℚ) ^ frac.length)
    else none
  | _ => none

/-- Replacement text of pattern 1 (line 1232). -/
def breakSupportFix (ps : String) (cp : ℚ) : String :=
  "已跌破前支撑" ++ ps ++ "(当前价" ++ fmt2 cp ++ "已在其下方)"

/-- Replacement text of pattern 2 (line 1248). -/
def breakResistanceFix (ps : String) (cp : ℚ) : String :=
  "已突破前阻力" ++ ps ++ "(当前价" ++ fmt2 cp ++ "已在其上方)"

/-- Replacement text of pattern 3 (line 1265). -/
def supportAboveFix (ps : String) : String :=
  "前支撑位" ++ ps ++ "(已失守，当前价在其下方)"

/-- One pass of `fix_price_logic`: for each match of the original text (in
order), strip commas from the digit group, parse it, and on the price
condition replace every occurrence of the whole matched text. -/
def applyPass (ms : List (String × String)) (cond : ℚ → Bool)
    (mkNew : String → String) (text : String) : String :=
  ms.foldl (fun t m =>
    let ps := String.mk (m.2.data.filter (fun c => c ≠ ','))
    match pyFloatOfClean ps.data with
    | some v => if cond v then pyReplace t m.1 (mkNew ps) else t
    | none => t) text

/-- `fix_price_logic` (lines 1220-1271): the three regex passes in order. -/
def fix_price_logic (cp : ℚ) (text : String) : String :=
  let m1 := findMatches (fun _ cs => matchBreak "向下".data "跌破".data "支撑".data "支撑位".data cs) text
  let t1 := applyPass m1 (fun v => decide (v > cp)) (fun ps => breakSupportFix ps cp) text
  let m2 := findMatches (fun _ cs => matchBreak "向上".data "突破".data "阻力".data "阻力位".data cs) t1
  let t2 := applyPass m2 (fun v => decide (v < cp)) (fun ps => breakResistanceFix ps cp) t1
  let m3 := findMatches matchSupportAt t2
  applyPass m3 (fun v => decide (v > cp * 1.01)) supportAboveFix t2

/-- `_sanitize_reasoning` (lines 1205-1286): map `fix_price_logic` over the
`reasoning` and `risk_warning` lists.  An absent key reads as `[]` through
`result.get` and is written back as a list; a present non-list value fails the
`isinstance` check and is left alone. -/
def _sanitize_reasoning (r : Draft) (ctx : Ctx) : Draft :=
  if ctx.current_price = 0 then r
  else
    let r1 := match r.reasoning with
      | .items xs => { r with reasoning := .items (xs.map (fix_price_logic ctx.current_price)) }
      | .missing => { r with reasoning := .items [] }
      | .notlist => r
    match r1.risk_warning with
    | .items xs => { r1 with risk_warning := .items (xs.map (fix_price_logic ctx.current_price)) }
    | .missing => { r1 with risk_warning := .items [] }
    | .notlist => r1

/-! ### The assembled validator -/

/-- Lines 1051-1138: the pipeline tail after the RRR gate (LVN stop guard, SMC
anchor, TP1 timeliness notice, the two ATR clamps, confidence calibration, key
levels, reasoning sanitation). -/
def tailStages (r7 : Draft) (ctx : Ctx) (loc : Locals) (avg_entry : ℚ) : Except Draft Draft :=
  match lvnGuard r7 ctx loc avg_entry with
  | .error r => .error r
  | .ok r8 =>
    let r9 := smcAnchor r8 ctx loc
    match tp1TouchNotice r9 ctx loc with
    | .error r => .error r
    | .ok r10 =>
      let r11 := tpDistanceClamp r10 ctx loc avg_entry
      let r12 := entryWidthClamp r11 ctx loc
      match confidenceCalibrate r12 ctx with
      | .error r => .error r
      | .ok r13 =>
        let r14 := _validate_key_levels r13 ctx
        .ok (_sanitize_reasoning r14 ctx)

/-- Lines 966-1138: everything after the neutral early return of line 964. -/
def afterDirection (r3 : Draft) (ctx : Ctx) (loc : Locals) : Except Draft Draft :=
  match fixStopAndTargets r3 ctx loc with
  | .error r => .error r
  | .ok rl4 =>
  match forceTP1 rl4.1 rl4.2 with
  | .error r => .error r
  | .ok rl5 =>
    let r6 := rl5.1
    let loc := rl5.2.1
    let risk_dist := rl5.2.2.1
    let avg_entry := rl5.2.2.2
    let step7 := rrrCheck r6 avg_entry risk_dist loc.is_long
    if step7.2 then .ok step7.1
    else tailStages step7.1 ctx loc avg_entry

/-- The body of `_validate_and_fix_prediction` inside its `try`: `.error`
carries the partially mutated result at the raise point. -/
def validateBody (r0 : Draft) (ctx : Ctx) : Except Draft Draft :=
  match directionAndAntiChase r0 ctx with
  | .error r => .error r
  | .ok rl =>
    if !rl.2.is_long && !rl.2.is_short then .ok rl.1
    else afterDirection rl.1 ctx rl.2

/-- `_validate_and_fix_prediction` (lines 861-1142): the blanket `except`
returns the result as mutated so far, so the function is total. -/
def _validate_and_fix_prediction (r : Draft) (ctx : Ctx) : Draft :=
  match validateBody r ctx with
  | .ok r1 => r1
  | .error r1 => r1

/-! ## Shared helper lemmas -/

lemma sqrtQ_nonneg (q : ℚ) : 0 ≤ TechnicalAnalyzer.sqrtQ q := by
  unfold TechnicalAnalyzer.sqrtQ
  split
  · exact le_refl 0
  · positivity

lemma clipZero_nonneg (c : ℚ) : 0 ≤ if c > 0 then c else 0 := by
  split <;> [linarith; exact le_refl 0]

lemma clipAbs_nonneg (c : ℚ) : (0 : ℚ) ≤ if c > 0 then 0 else |c| := by
  split <;> [exact le_refl 0; exact abs_nonneg c]

lemma sum_div_nonneg (l : List ℚ) (d : ℚ) (hl : ∀ x ∈ l, 0 ≤ x) (hd : 0 ≤ d) :
    0 ≤ l.sum / d :=
  div_nonneg (List.sum_nonneg hl) hd

lemma rsi_final_bounds (g l : ℚ) (hg : 0 ≤ g) (hl : 0 < l) :
    0 ≤ 100 - 100 / (1 + g / l) ∧ 100 - 100 / (1 + g / l) ≤ 100 := by
  have hrs : 0 ≤ g / l := div_nonneg hg hl.le
  have h1 : (0 : ℚ) < 1 + g / l := by linarith
  have h2 : 100 / (1 + g / l) ≤ 100 := by
    rw [div_le_iff₀ h1]; nlinarith
  have h3 : 0 ≤ 100 / (1 + g / l) := by positivity
  constructor <;> linarith

lemma lastN_sublist_nonneg (n : Nat) (l : List ℚ) (hl : ∀ x ∈ l, 0 ≤ x) :
    ∀ x ∈ lastN n l, 0 ≤ x :=
  fun x hx => hl x (List.mem_of_mem_drop hx)

lemma trueRanges_nonneg (klines : List Kline) :
    ∀ x ∈ TechnicalAnalyzer.trueRanges klines, 0 ≤ x := by
  induction klines with
  | nil => intro x hx; simp [TechnicalAnalyzer.trueRanges] at hx
  | cons a t ih =>
    cases t with
    | nil => intro x hx; simp [TechnicalAnalyzer.trueRanges] at hx
    | cons b t2 =>
      intro x hx
      simp only [TechnicalAnalyzer.trueRanges, List.tail_cons, List.zipWith_cons_cons] at hx
      cases hx with
      | head =>
        exact le_trans (abs_nonneg _) (le_trans (le_max_left _ _) (le_max_right _ _))
      | tail _ hx => exact ih x hx

/-! ## C10 -/

/-- C10: for every candle series with non-negative prices, the indicator
calculator outputs satisfy 0 ≤ RSI ≤ 100, bb_upper ≥ bb_middle ≥ bb_lower,
and ATR ≥ 0, including the short-series degradation branches.  (The RSI and
ATR bounds need no hypothesis at all; the non-negative-price hypothesis is
used only by the short-series Bollinger branch `price*1.02, price, price*0.98`,
and the band ordering needs the non-negative width multiplier, 2.0 in the
source.) -/
theorem C10_indicator_bounds :
    (∀ (prices : List ℚ) (period : Nat),
      0 ≤ TechnicalAnalyzer.calculate_rsi prices period ∧
        TechnicalAnalyzer.calculate_rsi prices period ≤ 100) ∧
    (∀ (prices : List ℚ) (period : Nat) (std_dev : ℚ),
      (∀ p ∈ prices, 0 ≤ p) → 0 ≤ std_dev →
      (TechnicalAnalyzer.calculate_bollinger_bands prices period std_dev).2.2 ≤
          (TechnicalAnalyzer.calculate_bollinger_bands prices period std_dev).2.1 ∧
        (TechnicalAnalyzer.calculate_bollinger_bands prices period std_dev).2.1 ≤
          (TechnicalAnalyzer.calculate_bollinger_bands prices period std_dev).1) ∧
    (∀ (klines : List Kline) (period : Nat),
      0 ≤ TechnicalAnalyzer.calculate_atr klines period) := by
  refine ⟨?_, ?_, ?_⟩
  · intro prices period
    simp only [TechnicalAnalyzer.calculate_rsi]
    split
    · norm_num
    · split
      · norm_num
      · split
        · norm_num
        · rename_i hlen hlen2 hloss
          have hg : (0 : ℚ) ≤ (lastN period ((TechnicalAnalyzer.changes prices).map
              (fun c => if c > 0 then c else 0))).sum / (period : ℚ) := by
            refine sum_div_nonneg _ _ ?_ (by positivity)
            refine lastN_sublist_nonneg _ _ ?_
            intro x hx
            rcases List.mem_map.mp hx with ⟨c, _, rfl⟩
            exact clipZero_nonneg c
          have hl : (0 : ℚ) ≤ (lastN period ((TechnicalAnalyzer.changes prices).map
              (fun c => if c > 0 then 0 else |c|))).sum / (period : ℚ) := by
            refine sum_div_nonneg _ _ ?_ (by positivity)
            refine lastN_sublist_nonneg _ _ ?_
            intro x hx
            rcases List.mem_map.mp hx with ⟨c, _, rfl⟩
            exact clipAbs_nonneg c
          have hlpos : (0 : ℚ) < (lastN period ((TechnicalAnalyzer.changes prices).map
              (fun c => if c > 0 then 0 else |c|))).sum / (period : ℚ) :=
            lt_of_le_of_ne hl (fun h => hloss h.symm)
          exact rsi_final_bounds _ _ hg hlpos
  · intro prices period std_dev hpr hsd
    simp only [TechnicalAnalyzer.calculate_bollinger_bands]
    split
    · have hp : (0 : ℚ) ≤ (prices.getLast?).getD 0 := by
        cases h : prices.getLast? with
        | none => simp
        | some a => simpa using hpr a (List.mem_of_mem_getLast? h)
      constructor <;> [nlinarith; nlinarith]
    · have hstd : 0 ≤ TechnicalAnalyzer.sqrtQ
        (((lastN period prices).map
          (fun p => (p - (lastN period prices).sum / (period : ℚ)) ^ 2)).sum / (period : ℚ)) :=
        sqrtQ_nonneg _
      constructor <;> nlinarith
  · intro klines period
    simp only [TechnicalAnalyzer.calculate_atr]
    split
    · exact le_refl 0
    · split
      · split
        · exact le_refl 0
        · exact sum_div_nonneg _ _ (trueRanges_nonneg klines) (by positivity)
      · exact sum_div_nonneg _ _
          (lastN_sublist_nonneg _ _ (trueRanges_nonneg klines)) (by positivity)

unseal Rat.add Rat.mul Rat.sub Rat.inv Rat.ofScientific in
/-- Witness for C10 at concrete inputs. -/
theorem C10_indicator_bounds_witness :
    ((∀ p ∈ [(100 : ℚ), 102, 101], 0 ≤ p) ∧ (0 : ℚ) ≤ 2) ∧
    ((TechnicalAnalyzer.calculate_bollinger_bands [100, 102, 101] 20 2).2.2 ≤
        (TechnicalAnalyzer.calculate_bollinger_bands [100, 102, 101] 20 2).2.1 ∧
      (TechnicalAnalyzer.calculate_bollinger_bands [100, 102, 101] 20 2).2.1 ≤
        (TechnicalAnalyzer.calculate_bollinger_bands [100, 102, 101] 20 2).1) ∧
    (0 ≤ TechnicalAnalyzer.calculate_rsi [100, 102, 101] 14 ∧
      TechnicalAnalyzer.calculate_rsi [100, 102, 101] 14 ≤ 100) ∧
    0 ≤ TechnicalAnalyzer.calculate_atr [⟨1, 5, 1, 3, 2⟩, ⟨3, 6, 2, 4, 2⟩] 14 :=
  ⟨⟨by decide, by decide⟩,
   C10_indicator_bounds.2.1 [100, 102, 101] 20 2 (by decide) (by decide),
   C10_indicator_bounds.1 [100, 102, 101] 14,
   C10_indicator_bounds.2.2 [⟨1, 5, 1, 3, 2⟩, ⟨3, 6, 2, 4, 2⟩] 14⟩

/-! ## C9

Concrete 16-sample series on which the analyzer's simple averages, the
aggregator's adjusted EWM, and the Wilder reference recurrence all differ. -/

/-- A 16-candle test series. -/
def klC9 : List Kline :=
  [⟨1, 2, 1, 1, 1⟩, ⟨1, 3, 1, 2, 1⟩, ⟨2, 10, 2, 9, 1⟩, ⟨9, 9, 8, 8, 1⟩,
   ⟨8, 8, 7, 7, 1⟩, ⟨7, 7, 6, 6, 1⟩, ⟨6, 6, 5, 5, 1⟩, ⟨5, 5, 4, 4, 1⟩,
   ⟨4, 4, 3, 3, 1⟩, ⟨3, 3, 2, 2, 1⟩, ⟨2, 4, 2, 4, 1⟩, ⟨4, 5, 3, 5, 1⟩,
   ⟨5, 6, 4, 6, 1⟩, ⟨6, 7, 5, 7, 1⟩, ⟨7, 8, 6, 8, 1⟩, ⟨8, 16, 7, 15, 1⟩]

/-- The closes of `klC9`. -/
def prC9 : List ℚ := [1, 2, 9, 8, 7, 6, 5, 4, 3, 2, 4, 5, 6, 7, 8, 15]

unseal Rat.add Rat.mul Rat.sub Rat.inv Rat.ofScientific in
/-- Counterexample to C9: on a concrete 16-candle series, neither the RSI nor
the ATR of the indicator calculator matches the Wilder reference recurrence
(`calculate_atr` gives 17/7 where Wilder smoothing of the same true ranges
gives 477/196; `calculate_rsi` gives 2000/27 where the Wilder RSI is 4000/53). -/
theorem C9_counterexample :
    TechnicalAnalyzer.calculate_atr klC9 14 ≠
      wilderSmooth (TechnicalAnalyzer.trueRanges klC9) 14 ∧
    TechnicalAnalyzer.calculate_rsi prC9 14 ≠ wilderRSI prC9 14 := by
  constructor <;> decide

unseal Rat.add Rat.mul Rat.sub Rat.inv Rat.ofScientific in
/-- C9 amended: the analyzer's momentum oscillator and average-true-range use
simple arithmetic means of the last `period` samples (no exponential
smoothing), the aggregator's fallback branch uses the pandas adjust-weighted
EWM with α = 1/period, and on a concrete series the two implementations
disagree both with the Wilder reference recurrence and with each other. -/
theorem C9_amended :
    (∀ (klines : List Kline) (period : Nat),
      2 ≤ klines.length → period ≤ (TechnicalAnalyzer.trueRanges klines).length →
      TechnicalAnalyzer.calculate_atr klines period =
        (lastN period (TechnicalAnalyzer.trueRanges klines)).sum / (period : ℚ)) ∧
    aggregatorATR klC9 ≠ wilderSmooth (trPandas klC9) 14 ∧
    aggregatorATR klC9 ≠ TechnicalAnalyzer.calculate_atr klC9 14 := by
  refine ⟨?_, by decide, by decide⟩
  intro klines period h2 hp
  simp only [TechnicalAnalyzer.calculate_atr]
  rw [if_neg (by omega), if_neg (by omega)]

unseal Rat.add Rat.mul Rat.sub Rat.inv Rat.ofScientific in
/-- Witness for the universally quantified part of `C9_amended`. -/
theorem C9_amended_witness :
    (2 ≤ klC9.length ∧ 14 ≤ (TechnicalAnalyzer.trueRanges klC9).length) ∧
    TechnicalAnalyzer.calculate_atr klC9 14 =
      (lastN 14 (TechnicalAnalyzer.trueRanges klC9)).sum / (14 : ℚ) :=
  ⟨⟨by decide, by decide⟩, C9_amended.1 klC9 14 (by decide) (by decide)⟩

/-! ## C8: volume-profile POC and value area -/

lemma list_sum_getD (l : List ℚ) :
    l.sum = ∑ i in Finset.range l.length, l.getD i 0 := by
  induction l with
  | nil => simp
  | cons x t ih =>
    simp only [List.sum_cons, List.length_cons, ih]
    rw [Finset.sum_range_succ']
    simp only [List.getD_cons_succ, List.getD_cons_zero]
    ring

lemma idxMax_spec (xs : List ℚ) (h : xs ≠ []) :
    idxMax xs < xs.length ∧ ∀ j < xs.length, xs.getD j 0 ≤ xs.getD (idxMax xs) 0 := by
  induction xs with
  | nil => simp at h
  | cons x t ih =>
    cases t with
    | nil =>
      refine ⟨by simp [idxMax], ?_⟩
      intro j hj
      have hj0 : j = 0 := by simpa using hj
      subst hj0
      simp [idxMax]
    | cons y t2 =>
      obtain ⟨ih1, ih2⟩ := ih (by simp)
      by_cases hc : (y :: t2).getD (idxMax (y :: t2)) 0 > x
      · rw [idxMax, if_pos hc]
        refine ⟨by simpa using Nat.succ_lt_succ ih1, ?_⟩
        intro j hj
        cases j with
        | zero => simpa using le_of_lt hc
        | succ k =>
          simp only [List.getD_cons_succ]
          exact ih2 k (by simpa using Nat.lt_of_succ_lt_succ hj)
      · rw [idxMax, if_neg hc]
        refine ⟨by simp, ?_⟩
        intro j hj
        cases j with
        | zero => simp
        | succ k =>
          simp only [List.getD_cons_succ, List.getD_cons_zero]
          exact le_trans (ih2 k (by simpa using Nat.lt_of_succ_lt_succ hj)) (not_lt.mp hc)

lemma addCandle_length (low high : ℚ) (bins : Nat) (profile : List ℚ) (c : Kline) :
    (addCandle low high bins profile c).length = profile.length := by
  simp only [addCandle]
  split
  · rfl
  · simp

lemma addCandle_nonneg (low high : ℚ) (bins : Nat) (profile : List ℚ) (c : Kline)
    (hp : ∀ x ∈ profile, 0 ≤ x) (hv : 0 ≤ c.volume) :
    ∀ x ∈ addCandle low high bins profile c, 0 ≤ x := by
  simp only [addCandle]
  split
  · exact hp
  · intro x hx
    rcases List.mem_map.mp hx with ⟨p, hpmem, rfl⟩
    have hp2 := hp p.2 (List.snd_mem_of_mem_enum hpmem)
    split
    · have hdiv : (0 : ℚ) ≤ c.volume /
          ((List.filter (binMask low high bins c) (List.range bins)).length : ℚ) :=
        div_nonneg hv (by positivity)
      linarith
    · exact hp2

lemma foldl_addCandle_length (low high : ℚ) (bins : Nat) :
    ∀ (dfs : List Kline) (acc : List ℚ),
      (dfs.foldl (addCandle low high bins) acc).length = acc.length := by
  intro dfs
  induction dfs with
  | nil => intro acc; rfl
  | cons c t ih =>
    intro acc
    simp only [List.foldl_cons]
    rw [ih, addCandle_length]

lemma foldl_addCandle_nonneg (low high : ℚ) (bins : Nat) :
    ∀ (dfs : List Kline) (acc : List ℚ),
      (∀ c ∈ dfs, 0 ≤ c.volume) → (∀ x ∈ acc, 0 ≤ x) →
      ∀ x ∈ dfs.foldl (addCandle low high bins) acc, 0 ≤ x := by
  intro dfs
  induction dfs with
  | nil => intro acc _ hacc; exact hacc
  | cons c t ih =>
    intro acc hvols hacc
    simp only [List.foldl_cons]
    exact ih _ (fun k hk => hvols k (List.mem_cons_of_mem _ hk))
      (addCandle_nonneg _ _ _ _ _ hacc (hvols c (List.mem_cons_self _ _)))

lemma volumeProfile_length (df : List Kline) (bins : Nat) :
    (volumeProfile df bins).length = bins := by
  unfold volumeProfile
  rw [foldl_addCandle_length]
  exact List.length_replicate bins 0

lemma volumeProfile_nonneg (df : List Kline) (bins : Nat)
    (hv : ∀ c ∈ df, 0 ≤ c.volume) : ∀ x ∈ volumeProfile df bins, 0 ≤ x := by
  unfold volumeProfile
  refine foldl_addCandle_nonneg _ _ _ _ _ hv ?_
  intro x hx
  rw [List.eq_of_mem_replicate hx]

lemma growVA_coverage (vols : List ℚ) (target : ℚ) (htarget : target ≤ vols.sum) :
    ∀ (fuel lo hi : Nat) (acc : ℚ), hi < vols.length → lo ≤ hi →
      lo + (vols.length - 1 - hi) ≤ fuel →
      acc + (∑ i in Finset.range lo, vols.getD i 0)
          + (∑ i in Finset.Ico (hi + 1) vols.length, vols.getD i 0) = vols.sum →
      target ≤ (growVA vols target fuel lo hi acc).2.2 := by
  intro fuel
  induction fuel with
  | zero =>
    intro lo hi acc hhi hlo hfuel hinv
    have hlo0 : lo = 0 := by omega
    have hhi0 : hi + 1 = vols.length := by omega
    subst hlo0
    rw [hhi0] at hinv
    simp only [Finset.range_zero, Finset.sum_empty, Finset.Ico_self,
      add_zero, zero_add] at hinv
    simp only [growVA]
    linarith [hinv]
  | succ fuel ih =>
    intro lo hi acc hhi hlo hfuel hinv
    simp only [growVA]
    split
    · next hstop => exact hstop
    · split
      · next hnostop hfull =>
        obtain ⟨hlo0, hhifull⟩ := hfull
        subst hlo0
        have hhi0 : hi + 1 = vols.length := by omega
        rw [hhi0] at hinv
        simp only [Finset.range_zero, Finset.sum_empty, Finset.Ico_self,
          add_zero, zero_add] at hinv
        linarith [hinv]
      · split
        · next hnostop hnotfull hup =>
          obtain ⟨hup1, _⟩ := hup
          refine ih lo (hi + 1) _ hup1 (by omega) (by omega) ?_
          rw [Finset.sum_eq_sum_Ico_succ_bot hup1 (fun i => vols.getD i 0)] at hinv
          linarith [hinv]
        · next hnostop hnotfull hnoup =>
          have hlo1 : 1 ≤ lo := by
            by_contra hcon
            have hlo0 : lo = 0 := by omega
            subst hlo0
            have : hi + 1 < vols.length := by omega
            exact hnoup ⟨this, Or.inl rfl⟩
          obtain ⟨lo', rfl⟩ : ∃ lo', lo = lo' + 1 := ⟨lo - 1, by omega⟩
          refine ih lo' hi _ hhi (by omega) (by omega) ?_
          rw [Finset.sum_range_succ] at hinv
          simp only [Nat.add_sub_cancel]
          linarith [hinv]

lemma valueArea_coverage (vols : List ℚ) (pocIdx : Nat)
    (hp : pocIdx < vols.length) (hnn : ∀ x ∈ vols, 0 ≤ x) :
    7 / 10 * vols.sum ≤ (valueArea vols pocIdx).2.2 := by
  have hsum : 0 ≤ vols.sum := List.sum_nonneg hnn
  unfold valueArea
  refine growVA_coverage vols _ (by linarith) _ _ _ _ hp (le_refl _) (by omega) ?_
  have htot := list_sum_getD vols
  rw [← Finset.sum_range_add_sum_Ico (fun i => vols.getD i 0) (Nat.le_of_lt hp)] at htot
  rw [Finset.sum_eq_sum_Ico_succ_bot hp (fun i => vols.getD i 0)] at htot
  linarith [htot]

/-- C8: for every candle frame long enough for the volume profile (≥ 5 rows,
non-degenerate price range, non-negative volumes, a positive bin count — 40 in
the source), the reported point of control is the centre of the first bin of
maximum aggregated volume among the equal-width bins, and the spec-modelled
value area (the construction is absent from `src/`; see `growVA`) grown
outward from that bin encloses at least 70% of the total volume. -/
theorem C8_vpvr_poc_value_area :
    ∀ (df : List Kline) (bins : Nat),
      5 ≤ df.length → dfLowMin df < dfHighMax df → 0 < bins →
      (∀ c ∈ df, 0 ≤ c.volume) →
      (_calculate_vpvr df bins).hvn =
          some ((binEdge (dfLowMin df) (dfHighMax df) bins (idxMax (volumeProfile df bins)) +
            binEdge (dfLowMin df) (dfHighMax df) bins (idxMax (volumeProfile df bins) + 1)) / 2) ∧
      idxMax (volumeProfile df bins) < bins ∧
      (∀ j < bins,
        (volumeProfile df bins).getD j 0 ≤
          (volumeProfile df bins).getD (idxMax (volumeProfile df bins)) 0) ∧
      7 / 10 * (volumeProfile df bins).sum ≤
        (valueArea (volumeProfile df bins) (idxMax (volumeProfile df bins))).2.2 := by
  intro df bins hlen hrange hbins hvols
  have hplen : (volumeProfile df bins).length = bins := volumeProfile_length df bins
  have hne : volumeProfile df bins ≠ [] := by
    intro hcon
    rw [hcon] at hplen
    simp at hplen
    omega
  obtain ⟨hmlt, hmax⟩ := idxMax_spec (volumeProfile df bins) hne
  refine ⟨?_, by omega, ?_, ?_⟩
  · simp only [_calculate_vpvr]
    rw [if_neg (by omega), if_neg (ne_of_gt hrange)]
  · intro j hj
    exact hmax j (by omega)
  · exact valueArea_coverage _ _ (by omega) (volumeProfile_nonneg df bins hvols)

/-- A 5-candle frame for the C8 witness. -/
def klC8 : List Kline :=
  [⟨1, 10, 0, 5, 100⟩, ⟨5, 6, 4, 5, 50⟩, ⟨5, 6, 4, 5, 50⟩, ⟨5, 6, 4, 5, 50⟩, ⟨5, 6, 4, 5, 50⟩]

unseal Rat.add Rat.mul Rat.sub Rat.inv Rat.ofScientific in
/-- Witness for C8 at a concrete 5-candle frame with 40 bins. -/
theorem C8_vpvr_poc_value_area_witness :
    (5 ≤ klC8.length ∧ dfLowMin klC8 < dfHighMax klC8 ∧ 0 < 40 ∧
      (∀ c ∈ klC8, 0 ≤ c.volume)) ∧
    ((_calculate_vpvr klC8 40).hvn =
        some ((binEdge (dfLowMin klC8) (dfHighMax klC8) 40 (idxMax (volumeProfile klC8 40)) +
          binEdge (dfLowMin klC8) (dfHighMax klC8) 40 (idxMax (volumeProfile klC8 40) + 1)) / 2) ∧
      idxMax (volumeProfile klC8 40) < 40 ∧
      (∀ j < 40,
        (volumeProfile klC8 40).getD j 0 ≤
          (volumeProfile klC8 40).getD (idxMax (volumeProfile klC8 40)) 0) ∧
      7 / 10 * (volumeProfile klC8 40).sum ≤
        (valueArea (volumeProfile klC8 40) (idxMax (volumeProfile klC8 40))).2.2) :=
  ⟨⟨by decide, by decide, by decide, by decide⟩,
   C8_vpvr_poc_value_area klC8 40 (by decide) (by decide) (by decide) (by decide)⟩

/-! ## Concrete validator inputs shared by the validator claims -/

/-- A quiet market context: current price 101, no ATR, no LVN, no conflicts. -/
def ctxBase : Ctx :=
  { current_price := 101, atr := 0, vpvr_lvn := none, vpvr_poc := none,
    signal_conflicts := 0, order_blocks := [] }

/-- Scenario B of the spec: entry [100, 102], stop 95, targets [103.5],
current price 101 (plus an innocuous long prediction text). -/
def draftB : Draft :=
  { prediction := "bullish", confidence := .num 70,
    entry_zone := some ⟨.num 100, .num 102⟩,
    stop_loss := .num 95, take_profit := .items [some 103.5],
    reasoning := .items [], risk_warning := .items [],
    key_levels := none, summary := "" }

/-- Scenario B with a second, lower target appended: targets [103.5, 50]. -/
def draftTwoTargets : Draft :=
  { prediction := "bullish", confidence := .num 70,
    entry_zone := some ⟨.num 100, .num 102⟩,
    stop_loss := .num 95, take_profit := .items [some 103.5, some 50],
    reasoning := .items [], risk_warning := .items [],
    key_levels := none, summary := "" }

/-- `ctxBase` with a unit ATR. -/
def ctxAtr1 : Ctx := { ctxBase with atr := 1 }

instance {ε α : Type} [DecidableEq ε] [DecidableEq α] : DecidableEq (Except ε α)
  | .error a, .error b =>
    if h : a = b then .isTrue (h ▸ rfl)
    else .isFalse (fun hc => by injection hc with h2; exact h h2)
  | .error _, .ok _ => .isFalse (fun hc => Except.noConfusion hc)
  | .ok _, .error _ => .isFalse (fun hc => Except.noConfusion hc)
  | .ok a, .ok b =>
    if h : a = b then .isTrue (h ▸ rfl)
    else .isFalse (fun hc => by injection hc with h2; exact h h2)

/-! ## C1: the risk-reward gate -/

set_option maxHeartbeats 3200000 in
unseal Rat.add Rat.mul Rat.sub Rat.inv Rat.ofScientific in
/-- Counterexample to C1: scenario B (entry [100,102], current 101, stop 95,
targets [103.5]) has spec-RRR |target₁−entryMid|/|entryMid−stop| = 5/12 < 1.2,
yet the validator does **not** downgrade it: the output stays 看涨 (long) with
the single target lifted to 109.3. -/
theorem C1_counterexample :
    (|(103.5 : ℚ) - (100 + 102) / 2| / |(100 + 102) / 2 - 95| < 1.2) ∧
    (_validate_and_fix_prediction draftB ctxBase).prediction = "看涨" ∧
    (_validate_and_fix_prediction draftB ctxBase).prediction ≠ "震荡" ∧
    (_validate_and_fix_prediction draftB ctxBase).take_profit =
      .items [some (1093 / 10)] := by
  refine ⟨by decide, by decide, by decide, by decide⟩

/-! ## C6: idempotence -/

set_option maxHeartbeats 3200000 in
unseal Rat.add Rat.mul Rat.sub Rat.inv Rat.ofScientific in
/-- Counterexample to C6: running the validator on its own scenario-B output
does not reproduce it (the RRR-optimization note is prepended again). -/
theorem C6_counterexample :
    _validate_and_fix_prediction (_validate_and_fix_prediction draftB ctxBase) ctxBase ≠
      _validate_and_fix_prediction draftB ctxBase := by
  decide

set_option maxHeartbeats 3200000 in
unseal Rat.add Rat.mul Rat.sub Rat.inv Rat.ofScientific in
/-- C6 amended: the validator is not idempotent — each rerun that triggers the
RRR adjustment prepends its advisory line again — but on scenario B the second
run leaves every numeric field (prediction, entry zone, stop, targets,
confidence, key levels) unchanged; only the narrative list differs. -/
theorem C6_amended :
    (_validate_and_fix_prediction (_validate_and_fix_prediction draftB ctxBase) ctxBase).prediction =
        (_validate_and_fix_prediction draftB ctxBase).prediction ∧
    (_validate_and_fix_prediction (_validate_and_fix_prediction draftB ctxBase) ctxBase).entry_zone =
        (_validate_and_fix_prediction draftB ctxBase).entry_zone ∧
    (_validate_and_fix_prediction (_validate_and_fix_prediction draftB ctxBase) ctxBase).stop_loss =
        (_validate_and_fix_prediction draftB ctxBase).stop_loss ∧
    (_validate_and_fix_prediction (_validate_and_fix_prediction draftB ctxBase) ctxBase).take_profit =
        (_validate_and_fix_prediction draftB ctxBase).take_profit ∧
    (_validate_and_fix_prediction (_validate_and_fix_prediction draftB ctxBase) ctxBase).confidence =
        (_validate_and_fix_prediction draftB ctxBase).confidence ∧
    (_validate_and_fix_prediction (_validate_and_fix_prediction draftB ctxBase) ctxBase).key_levels =
        (_validate_and_fix_prediction draftB ctxBase).key_levels ∧
    (_validate_and_fix_prediction (_validate_and_fix_prediction draftB ctxBase) ctxBase).reasoning ≠
        (_validate_and_fix_prediction draftB ctxBase).reasoning := by
  refine ⟨by decide, by decide, by decide, by decide, by decide, by decide, by decide⟩

/-! ## C7: error handling of missing / null numeric fields -/

/-- A draft whose `stop_loss` is JSON `null` and whose entry zone violates the
anti-chase bound. -/
def draftNullStop : Draft :=
  { prediction := "bullish", confidence := .num 70,
    entry_zone := some ⟨.num 100, .num 200⟩,
    stop_loss := .null, take_profit := .items [some 300],
    reasoning := .items [], risk_warning := .items [],
    key_levels := none, summary := "" }

set_option maxHeartbeats 3200000 in
unseal Rat.add Rat.mul Rat.sub Rat.inv Rat.ofScientific in
/-- Counterexample to C7: a draft with a `null` stop_loss is returned
completely unprocessed — its prediction text is not normalized and its entry
high 200 > 101×1.0005 is not clamped — instead of being treated as zero and
corrected forward. -/
theorem C7_counterexample :
    _validate_and_fix_prediction draftNullStop ctxBase = draftNullStop ∧
    draftNullStop.entry_zone = some ⟨.num 100, .num 200⟩ ∧
    ((200 : ℚ) > 101 * 1.0005) ∧
    draftNullStop.prediction = "bullish" := by
  refine ⟨by decide, by decide, by decide, by decide⟩

/-! ## C3: the forced 1:1 first target -/

set_option maxHeartbeats 3200000 in
unseal Rat.add Rat.mul Rat.sub Rat.inv Rat.ofScientific in
/-- Counterexample to C3: scenario B resolves long with corrected entry
[100, 101] (midpoint 100.5) and stop 95, so the 1:1 point is 106; the ATR is 0
so the 5×ATR clamp cannot fire — yet the returned first target is 109.3, not
106, because the total-RRR adjustment rewrote the last element of the
single-element target list afterwards. -/
theorem C3_counterexample :
    (_validate_and_fix_prediction draftB ctxBase).prediction = "看涨" ∧
    (_validate_and_fix_prediction draftB ctxBase).entry_zone =
      some ⟨.num 100, .num 101⟩ ∧
    (_validate_and_fix_prediction draftB ctxBase).stop_loss = .num 95 ∧
    ctxBase.atr = 0 ∧
    (0 : ℚ) < |(100 + 101) / 2 - 95| ∧
    (_validate_and_fix_prediction draftB ctxBase).take_profit =
      .items [some (1093 / 10)] ∧
    (1093 / 10 : ℚ) ≠ (100 + 101) / 2 + |(100 + 101) / 2 - 95| := by
  refine ⟨by decide, by decide, by decide, by decide, by decide, by decide, by decide⟩

/-! ## C4: confidence calibration -/

/-- A clean long draft with confidence 85. -/
def draftConf85 : Draft :=
  { prediction := "看涨", confidence := .num 85,
    entry_zone := some ⟨.num 100, .num 101⟩,
    stop_loss := .num 95, take_profit := .items [some 110],
    reasoning := .items [], risk_warning := .items [],
    key_levels := none, summary := "" }

/-- One fired signal conflict. -/
def ctxConf1 : Ctx := { ctxBase with signal_conflicts := 1 }

set_option maxHeartbeats 3200000 in
unseal Rat.add Rat.mul Rat.sub Rat.inv Rat.ofScientific in
/-- Counterexample to C4: with exactly one fired conflict a draft confidence
of 85 passes through uncapped (85 > 80), and no warning line is appended. -/
theorem C4_counterexample :
    (_validate_and_fix_prediction draftConf85 ctxConf1).confidence = .num 85 ∧
    ((85 : ℚ) > 80) ∧
    (_validate_and_fix_prediction draftConf85 ctxConf1).prediction = "看涨" ∧
    (_validate_and_fix_prediction draftConf85 ctxConf1).risk_warning = .items [] := by
  refine ⟨by decide, by decide, by decide, by decide⟩

/-! ## C5: key-level anchoring -/

/-- A neutral draft carrying inconsistent key levels (support 120 above the
current price 101, stale current_price 999). -/
def draftNeutralKL : Draft :=
  { prediction := "hold", confidence := .num 50,
    entry_zone := some ⟨.num 100, .num 101⟩,
    stop_loss := .num 0, take_profit := .items [],
    reasoning := .items [], risk_warning := .items [],
    key_levels := some ⟨.num 999, .num 120, .missing, .missing, .missing⟩,
    summary := "" }

set_option maxHeartbeats 3200000 in
unseal Rat.add Rat.mul Rat.sub Rat.inv Rat.ofScientific in
/-- Counterexample to C5: a draft that resolves to neutral returns at the
early neutral exit, before `_validate_key_levels` runs — its stale
`current_price` 999 is not overwritten with the true 101 and its support 120
(≥ current price) is not corrected. -/
theorem C5_counterexample :
    (_validate_and_fix_prediction draftNeutralKL ctxBase).prediction = "震荡" ∧
    (_validate_and_fix_prediction draftNeutralKL ctxBase).key_levels =
      some ⟨.num 999, .num 120, .missing, .missing, .missing⟩ ∧
    ((999 : ℚ) ≠ 101) ∧ ((120 : ℚ) ≥ 101) := by
  refine ⟨by decide, by decide, by decide, by decide⟩

/-! ## Amended theorems for the validator gate stages -/

set_option maxHeartbeats 3200000 in
unseal Rat.add Rat.mul Rat.sub Rat.inv Rat.ofScientific in
/-- C1 amended: the risk-reward gate of the source computes RRR on the **last**
target (after TP1 was forced to the 1:1 point) with thresholds 1.5/1.0 — only
RRR < 1.0 downgrades to 震荡, prepends the explanatory line and stops
processing; in [1.0, 1.5) the last target is lifted to the 1.6:1 point
instead.  Scenario B is therefore not downgraded: its output stays 看涨 with
the target lifted to 109.3. -/
theorem C1_amended :
    (∀ (r : Draft) (avg_entry risk_dist : ℚ) (is_long : Bool) (t : ℚ)
        (rs : List String),
      lastTP r = some t → 0 < risk_dist → |t - avg_entry| / risk_dist < 1 →
      r.reasoning = .items rs →
      rrrCheck r avg_entry risk_dist is_long =
        ({ r with
           prediction := "震荡",
           reasoning := .items (rrrDowngradeLine (|t - avg_entry| / risk_dist) :: rs) },
         true)) ∧
    (_validate_and_fix_prediction draftB ctxBase).prediction = "看涨" ∧
    (_validate_and_fix_prediction draftB ctxBase).take_profit =
      .items [some (1093 / 10)] := by
  refine ⟨?_, by decide, by decide⟩
  intro r avg_entry risk_dist is_long t rs hlast hrisk hrrr hreas
  simp only [rrrCheck, hlast]
  rw [if_pos hrisk, if_pos (show |t - avg_entry| / risk_dist < 1.5 by
    have h15 : (1 : ℚ) < 1.5 := by norm_num
    linarith), if_pos hrrr]
  simp [JListS.insert0, hreas]

/-- A minimal accepted-long draft for the C1 witness: last target 103, entry
midpoint 101, risk distance 6, RRR 1/3. -/
def draftRRRLow : Draft :=
  { prediction := "看涨", confidence := .num 50,
    entry_zone := some ⟨.num 100, .num 102⟩,
    stop_loss := .num 95, take_profit := .items [some 103],
    reasoning := .items [], risk_warning := .items [],
    key_levels := none, summary := "" }

unseal Rat.add Rat.mul Rat.sub Rat.inv Rat.ofScientific in
/-- Witness for the gate part of `C1_amended` at a concrete state. -/
theorem C1_amended_witness :
    (lastTP draftRRRLow = some 103 ∧ (0 : ℚ) < 6 ∧
      |(103 : ℚ) - 101| / 6 < 1 ∧ draftRRRLow.reasoning = .items []) ∧
    rrrCheck draftRRRLow 101 6 true =
      ({ draftRRRLow with
         prediction := "震荡",
         reasoning := .items [rrrDowngradeLine (|(103 : ℚ) - 101| / 6)] }, true) :=
  ⟨⟨by decide, by decide, by decide, by decide⟩,
   C1_amended.1 draftRRRLow 101 6 true 103 [] (by decide) (by decide) (by decide) (by decide)⟩

/-- A concrete `Locals` state for the C3 witness: long, entry [100, 101],
parsed stop 95, unfiltered target list [103.5, 50]. -/
def locC3 : Locals :=
  { is_long := true, is_short := false, entry_low := 100, entry_high := 101,
    sl := 95, tps := [103.5, 50] }

/-- The draft state entering the 1:1 stage in the C3 witness (targets already
filtered to [103.5]). -/
def draftC3 : Draft :=
  { draftB with entry_zone := some ⟨.num 100, .num 101⟩,
                take_profit := .items [some 103.5] }

unseal Rat.add Rat.mul Rat.sub Rat.inv Rat.ofScientific in
/-- C3 amended: with positive risk distance the 1:1 stage overwrites
`take_profit` with the Python-local target list — the **unfiltered** list of
line 968-971, its head replaced by the 1:1 point — so the directional filter
of the previous stage is undone and the draft's own tail returns; the first
element equals `entryMid ± riskDist` at this stage but can still be rewritten
downstream by the 5×ATR clamp or, for a single-element list, by the total-RRR
last-target adjustment. -/
theorem C3_amended :
    ∀ (r : Draft) (loc : Locals) (sl t : ℚ) (ts : List ℚ),
      r.stop_loss = .num sl → loc.tps = t :: ts →
      0 < |(loc.entry_low + loc.entry_high) / 2 - sl| →
      forceTP1 r loc =
        .ok ({ r with
               take_profit := .items
                 (((if loc.is_long then
                      (loc.entry_low + loc.entry_high) / 2 +
                        |(loc.entry_low + loc.entry_high) / 2 - sl|
                    else
                      (loc.entry_low + loc.entry_high) / 2 -
                        |(loc.entry_low + loc.entry_high) / 2 - sl|) :: ts).map some) },
             { loc with
               sl := sl,
               tps := (if loc.is_long then
                         (loc.entry_low + loc.entry_high) / 2 +
                           |(loc.entry_low + loc.entry_high) / 2 - sl|
                       else
                         (loc.entry_low + loc.entry_high) / 2 -
                           |(loc.entry_low + loc.entry_high) / 2 - sl|) :: ts },
             |(loc.entry_low + loc.entry_high) / 2 - sl|,
             (loc.entry_low + loc.entry_high) / 2) := by
  intro r loc sl t ts hsl htps hrisk
  simp only [forceTP1, hsl, JVal.toFloatD]
  rw [if_pos hrisk]
  simp [htps]

unseal Rat.add Rat.mul Rat.sub Rat.inv Rat.ofScientific in
/-- Witness for `C3_amended`: the stored list is the unfiltered [103.5, 50]
with its head replaced by the 1:1 point 105.5, although the draft state held
the filtered [103.5]. -/
theorem C3_amended_witness :
    (draftC3.stop_loss = .num 95 ∧ locC3.tps = 103.5 :: [50] ∧
      (0 : ℚ) < |(100 + 101) / 2 - 95|) ∧
    forceTP1 draftC3 locC3 =
      .ok ({ draftC3 with
             take_profit := .items
               (((if locC3.is_long then
                    (locC3.entry_low + locC3.entry_high) / 2 +
                      |(locC3.entry_low + locC3.entry_high) / 2 - 95|
                  else
                    (locC3.entry_low + locC3.entry_high) / 2 -
                      |(locC3.entry_low + locC3.entry_high) / 2 - 95|) :: [50]).map some) },
           { locC3 with
             sl := 95,
             tps := (if locC3.is_long then
                       (locC3.entry_low + locC3.entry_high) / 2 +
                         |(locC3.entry_low + locC3.entry_high) / 2 - 95|
                     else
                       (locC3.entry_low + locC3.entry_high) / 2 -
                         |(locC3.entry_low + locC3.entry_high) / 2 - 95|) :: [50] },
           |(locC3.entry_low + locC3.entry_high) / 2 - 95|,
           (locC3.entry_low + locC3.entry_high) / 2) :=
  ⟨⟨by decide, by decide, by decide⟩,
   C3_amended draftC3 locC3 95 103.5 [50] (by decide) (by decide) (by decide)⟩

/-- Scenario E draft: confidence 90. -/
def draftConf90 : Draft := { draftConf85 with confidence := .num 90 }

/-- Three fired signal conflicts. -/
def ctxConf3 : Ctx := { ctxBase with signal_conflicts := 3 }

set_option maxHeartbeats 3200000 in
unseal Rat.add Rat.mul Rat.sub Rat.inv Rat.ofScientific in
/-- C4 amended: the confidence caps are 60 for ≥ 3 conflicts and 70 for 2
conflicts, each appending one warning line; the 1-conflict branch caps to 80
**only when the confidence exceeds 85** (so outputs up to 85 pass through) and
appends no warning.  Scenario E (3 conflicts, confidence 90 → 60) holds. -/
theorem C4_amended :
    (∀ (r : Draft) (ctx : Ctx) (c : ℚ), r.confidence = .num c →
      ((3 ≤ ctx.signal_conflicts ∧ 60 < c →
        confidenceCalibrate r ctx =
          .ok { r with
                confidence := .num (min c 60),
                risk_warning := .items (r.risk_warning.asList ++
                  [confWarn3 ctx.signal_conflicts (min c 60)]) }) ∧
       (ctx.signal_conflicts = 2 ∧ 70 < c →
        confidenceCalibrate r ctx =
          .ok { r with
                confidence := .num (min c 70),
                risk_warning := .items (r.risk_warning.asList ++
                  [confWarn2 2 (min c 70)]) }) ∧
       (ctx.signal_conflicts = 2 ∧ c ≤ 70 →
        confidenceCalibrate r ctx =
          .ok { r with risk_warning := r.risk_warning.ensureList }) ∧
       (ctx.signal_conflicts = 1 →
        confidenceCalibrate r ctx =
          .ok { r with
                confidence := if 85 < c then .num (min c 80) else .num c,
                risk_warning := r.risk_warning.ensureList }))) ∧
    (_validate_and_fix_prediction draftConf90 ctxConf3).confidence = .num 60 ∧
    (_validate_and_fix_prediction draftConf90 ctxConf3).risk_warning =
      .items [confWarn3 3 60] := by
  refine ⟨?_, by decide, by decide⟩
  intro r ctx c hconf
  obtain ⟨p, cf, ez, sl, tp, rs, rw, kl, sm⟩ := r
  simp only at hconf
  subst hconf
  refine ⟨?_, ?_, ?_, ?_⟩
  · rintro ⟨h3, h60⟩
    simp only [confidenceCalibrate, JVal.toFloatD]
    rw [if_neg (by omega : ¬ctx.signal_conflicts = 0),
      if_pos (And.intro h3 h60)]
    simp [JListS.ensureList, JListS.asList]
    cases rw <;> simp [JListS.ensureList, JListS.asList]
  · rintro ⟨h2, h70⟩
    simp only [confidenceCalibrate, JVal.toFloatD]
    rw [if_neg (by omega : ¬ctx.signal_conflicts = 0),
      if_neg (by omega : ¬(3 ≤ ctx.signal_conflicts ∧ 60 < c)),
      if_pos (And.intro (by omega) h70), h2]
    cases rw <;> simp [JListS.ensureList, JListS.asList]
  · rintro ⟨h2, h70⟩
    simp only [confidenceCalibrate, JVal.toFloatD]
    rw [if_neg (by omega : ¬ctx.signal_conflicts = 0),
      if_neg (by omega : ¬(3 ≤ ctx.signal_conflicts ∧ 60 < c)),
      if_neg (by push_neg; intro _; linarith),
      if_neg (by push_neg; intro _; linarith)]
  · intro h1
    simp only [confidenceCalibrate, JVal.toFloatD]
    rw [if_neg (by omega : ¬ctx.signal_conflicts = 0),
      if_neg (by omega : ¬(3 ≤ ctx.signal_conflicts ∧ 60 < c)),
      if_neg (by omega : ¬(2 ≤ ctx.signal_conflicts ∧ 70 < c))]
    by_cases h85 : 85 < c
    · rw [if_pos (And.intro (by omega) h85), if_pos h85]
    · rw [if_neg (by push_neg; intro _; linarith), if_neg h85]

unseal Rat.add Rat.mul Rat.sub Rat.inv Rat.ofScientific in
/-- Witness for the 1-conflict branch of `C4_amended`: confidence 85 passes
through unchanged with no warning appended. -/
theorem C4_amended_witness :
    (draftConf85.confidence = .num 85 ∧ ctxConf1.signal_conflicts = 1) ∧
    confidenceCalibrate draftConf85 ctxConf1 =
      .ok { draftConf85 with
            confidence := if (85 : ℚ) < 85 then .num (min 85 80) else .num 85,
            risk_warning := draftConf85.risk_warning.ensureList } :=
  ⟨⟨by decide, by decide⟩,
   ((C4_amended.1 draftConf85 ctxConf1 85 (by decide)).2.2.2 (by decide))⟩

/-- The neutral key-levels draft relabelled long, for the scenario-D stage
conjunct of C5. -/
def draftLongKL : Draft := { draftNeutralKL with prediction := "看涨" }

unseal Rat.add Rat.mul Rat.sub Rat.inv Rat.ofScientific in
/-- C5 amended: `_validate_key_levels` — which the validator reaches only on
drafts resolved long/short that pass the total-RRR ≥ 1.0 gate, not on neutral
outputs — overwrites `current_price` with the true value and pushes every
positive support below and every positive resistance above it (±5% strong,
±2% weak), provided the current price is nonzero and the four level entries
parse (are not `null`).  Scenario D holds there: support 120 at current price
101 becomes 101×0.95 = 95.95. -/
theorem C5_amended :
    (∀ (r : Draft) (ctx : Ctx), 0 < ctx.current_price →
      (r.key_levels.getD KeyLevels.empty).strong_support ≠ .null →
      (r.key_levels.getD KeyLevels.empty).strong_resistance ≠ .null →
      (r.key_levels.getD KeyLevels.empty).weak_support ≠ .null →
      (r.key_levels.getD KeyLevels.empty).weak_resistance ≠ .null →
      ∃ kl, (_validate_key_levels r ctx).key_levels = some kl ∧
        kl.current_price = .num ctx.current_price ∧
        (∀ v, kl.strong_support = .num v → 0 < v → v < ctx.current_price) ∧
        (∀ v, kl.weak_support = .num v → 0 < v → v < ctx.current_price) ∧
        (∀ v, kl.strong_resistance = .num v → 0 < v → ctx.current_price < v) ∧
        (∀ v, kl.weak_resistance = .num v → 0 < v → ctx.current_price < v)) ∧
    (_validate_key_levels draftLongKL ctxBase).key_levels =
      some ⟨.num 101, .num (101 * 0.95), .missing, .missing, .missing⟩ ∧
    (101 * 0.95 : ℚ) = 95.95 := by
  refine ⟨?_, by decide, by decide⟩
  intro r ctx hcp hss hsr hws hwr
  simp only [_validate_key_levels]
  rw [if_neg (by linarith : ¬ctx.current_price = 0)]
  obtain ⟨ss, hssv⟩ : ∃ v, (r.key_levels.getD KeyLevels.empty).strong_support.toFloatD 0 = some v := by
    cases h : (r.key_levels.getD KeyLevels.empty).strong_support with
    | missing => exact ⟨0, rfl⟩
    | null => exact absurd h hss
    | num x => exact ⟨x, rfl⟩
  obtain ⟨sr, hsrv⟩ : ∃ v, (r.key_levels.getD KeyLevels.empty).strong_resistance.toFloatD 0 = some v := by
    cases h : (r.key_levels.getD KeyLevels.empty).strong_resistance with
    | missing => exact ⟨0, rfl⟩
    | null => exact absurd h hsr
    | num x => exact ⟨x, rfl⟩
  obtain ⟨ws, hwsv⟩ : ∃ v, (r.key_levels.getD KeyLevels.empty).weak_support.toFloatD 0 = some v := by
    cases h : (r.key_levels.getD KeyLevels.empty).weak_support with
    | missing => exact ⟨0, rfl⟩
    | null => exact absurd h hws
    | num x => exact ⟨x, rfl⟩
  obtain ⟨wr, hwrv⟩ : ∃ v, (r.key_levels.getD KeyLevels.empty).weak_resistance.toFloatD 0 = some v := by
    cases h : (r.key_levels.getD KeyLevels.empty).weak_resistance with
    | missing => exact ⟨0, rfl⟩
    | null => exact absurd h hwr
    | num x => exact ⟨x, rfl⟩
  simp only [hssv, hsrv, hwsv, hwrv]
  refine ⟨_, rfl, ?_, ?_, ?_, ?_, ?_⟩
  · split <;> split <;> split <;> split <;> rfl
  · intro v hv hvpos
    simp only [apply_ite KeyLevels.strong_support, ite_self] at hv
    split at hv
    · next hcond =>
      injection hv with h
      linarith
    · next hcond =>
      rw [hv] at hssv
      simp only [JVal.toFloatD, Option.some.injEq] at hssv
      subst hssv
      push_neg at hcond
      exact hcond hvpos
  · intro v hv hvpos
    simp only [apply_ite KeyLevels.weak_support, ite_self] at hv
    split at hv
    · next hcond =>
      injection hv with h
      linarith
    · next hcond =>
      rw [hv] at hwsv
      simp only [JVal.toFloatD, Option.some.injEq] at hwsv
      subst hwsv
      push_neg at hcond
      exact hcond hvpos
  · intro v hv hvpos
    simp only [apply_ite KeyLevels.strong_resistance, ite_self] at hv
    split at hv
    · next hcond =>
      injection hv with h
      linarith
    · next hcond =>
      rw [hv] at hsrv
      simp only [JVal.toFloatD, Option.some.injEq] at hsrv
      subst hsrv
      push_neg at hcond
      exact hcond hvpos
  · intro v hv hvpos
    simp only [apply_ite KeyLevels.weak_resistance, ite_self] at hv
    split at hv
    · next hcond =>
      injection hv with h
      linarith
    · next hcond =>
      rw [hv] at hwrv
      simp only [JVal.toFloatD, Option.some.injEq] at hwrv
      subst hwrv
      push_neg at hcond
      exact hcond hvpos

unseal Rat.add Rat.mul Rat.sub Rat.inv Rat.ofScientific in
/-- Witness for the anchoring part of `C5_amended` at the scenario-D draft. -/
theorem C5_amended_witness :
    ((0 : ℚ) < ctxBase.current_price ∧
      (draftLongKL.key_levels.getD KeyLevels.empty).strong_support ≠ .null ∧
      (draftLongKL.key_levels.getD KeyLevels.empty).strong_resistance ≠ .null ∧
      (draftLongKL.key_levels.getD KeyLevels.empty).weak_support ≠ .null ∧
      (draftLongKL.key_levels.getD KeyLevels.empty).weak_resistance ≠ .null) ∧
    (∃ kl, (_validate_key_levels draftLongKL ctxBase).key_levels = some kl ∧
      kl.current_price = .num ctxBase.current_price ∧
      (∀ v, kl.strong_support = .num v → 0 < v → v < ctxBase.current_price) ∧
      (∀ v, kl.weak_support = .num v → 0 < v → v < ctxBase.current_price) ∧
      (∀ v, kl.strong_resistance = .num v → 0 < v → ctxBase.current_price < v) ∧
      (∀ v, kl.weak_resistance = .num v → 0 < v → ctxBase.current_price < v)) :=
  ⟨⟨by decide, by decide, by decide, by decide, by decide⟩,
   C5_amended.1 draftLongKL ctxBase (by decide) (by decide) (by decide) (by decide)
     (by decide)⟩

set_option maxHeartbeats 1600000 in
/-- C7 amended: the validator itself never propagates an exception (it is a
total function, the blanket handler returning the partially processed
result).  A **missing** numeric field is treated as zero/empty and corrected
forward — provided the other numeric fields parse, a draft with an absent
`stop_loss` / `take_profit` / `entry_zone` validates exactly like one carrying
`0` / `[]` / the current-price point zone.  A **null** `stop_loss`, however,
raises internally (`float(None)`) before any mutation, and the draft is
returned entirely unprocessed, not corrected forward. -/
theorem C7_amended :
    (∀ (d : Draft) (ctx : Ctx), d.stop_loss = .null →
      _validate_and_fix_prediction d ctx = d) ∧
    (∀ (d : Draft) (ctx : Ctx),
      (d.entry_zone.getD ⟨.num ctx.current_price, .num ctx.current_price⟩).low ≠ .null →
      (d.entry_zone.getD ⟨.num ctx.current_price, .num ctx.current_price⟩).high ≠ .null →
      d.take_profit.toFloats ≠ none →
      _validate_and_fix_prediction { d with stop_loss := .missing } ctx =
        _validate_and_fix_prediction { d with stop_loss := .num 0 } ctx) ∧
    (∀ (d : Draft) (ctx : Ctx),
      (d.entry_zone.getD ⟨.num ctx.current_price, .num ctx.current_price⟩).low ≠ .null →
      (d.entry_zone.getD ⟨.num ctx.current_price, .num ctx.current_price⟩).high ≠ .null →
      d.stop_loss ≠ .null →
      _validate_and_fix_prediction { d with take_profit := .missing } ctx =
        _validate_and_fix_prediction { d with take_profit := .items [] } ctx) ∧
    (∀ (d : Draft) (ctx : Ctx),
      d.take_profit.toFloats ≠ none → d.stop_loss ≠ .null →
      _validate_and_fix_prediction { d with entry_zone := none } ctx =
        _validate_and_fix_prediction
          { d with entry_zone := some ⟨.num ctx.current_price, .num ctx.current_price⟩ } ctx) := by
  refine ⟨?_, ?_, ?_, ?_⟩
  · intro d ctx hnull
    simp only [_validate_and_fix_prediction, validateBody, directionAndAntiChase, hnull]
    cases h1 : (d.entry_zone.getD ⟨.num ctx.current_price, .num ctx.current_price⟩).low.toFloatD
        ctx.current_price with
    | none => simp only [h1]
    | some el =>
      cases h2 : (d.entry_zone.getD ⟨.num ctx.current_price, .num ctx.current_price⟩).high.toFloatD
          ctx.current_price with
      | none => simp only [h1, h2]
      | some eh =>
        cases h3 : d.take_profit.toFloats with
        | none => simp only [h1, h2, h3]
        | some tps => simp only [h1, h2, h3, JVal.toFloatD]
  · intro d ctx h1 h2 h3
    have hstage : directionAndAntiChase { d with stop_loss := .missing } ctx =
        directionAndAntiChase { d with stop_loss := .num 0 } ctx := by
      obtain ⟨p, cf, ez, sl, tp, rs, rw, kl, sm⟩ := d
      simp only at h1 h2 h3
      obtain ⟨el, hel⟩ : ∃ v, (ez.getD ⟨.num ctx.current_price, .num ctx.current_price⟩).low.toFloatD
          ctx.current_price = some v := by
        cases h : (ez.getD ⟨.num ctx.current_price, .num ctx.current_price⟩).low with
        | missing => exact ⟨ctx.current_price, rfl⟩
        | null => exact absurd h h1
        | num x => exact ⟨x, rfl⟩
      obtain ⟨eh, heh⟩ : ∃ v, (ez.getD ⟨.num ctx.current_price, .num ctx.current_price⟩).high.toFloatD
          ctx.current_price = some v := by
        cases h : (ez.getD ⟨.num ctx.current_price, .num ctx.current_price⟩).high with
        | missing => exact ⟨ctx.current_price, rfl⟩
        | null => exact absurd h h2
        | num x => exact ⟨x, rfl⟩
      obtain ⟨tps, htps⟩ : ∃ l, tp.toFloats = some l := by
        cases h : tp.toFloats with
        | none => exact absurd h h3
        | some l => exact ⟨l, rfl⟩
      simp only [directionAndAntiChase, hel, heh, htps]
      simp only [JVal.toFloatD]
      simp only [apply_ite Prod.fst, apply_ite Prod.snd, apply_ite Draft.confidence,
        apply_ite Draft.prediction, apply_ite Draft.entry_zone, apply_ite Draft.reasoning,
        apply_ite Draft.risk_warning, apply_ite Draft.key_levels, apply_ite Draft.summary,
        apply_ite Draft.take_profit, apply_ite Draft.stop_loss, ite_self]
    simp only [_validate_and_fix_prediction, validateBody, hstage]
  · intro d ctx h1 h2 hsl
    have hstage : directionAndAntiChase { d with take_profit := .missing } ctx =
        directionAndAntiChase { d with take_profit := .items [] } ctx := by
      obtain ⟨p, cf, ez, sl, tp, rs, rw, kl, sm⟩ := d
      simp only at h1 h2 hsl
      obtain ⟨el, hel⟩ : ∃ v, (ez.getD ⟨.num ctx.current_price, .num ctx.current_price⟩).low.toFloatD
          ctx.current_price = some v := by
        cases h : (ez.getD ⟨.num ctx.current_price, .num ctx.current_price⟩).low with
        | missing => exact ⟨ctx.current_price, rfl⟩
        | null => exact absurd h h1
        | num x => exact ⟨x, rfl⟩
      obtain ⟨eh, heh⟩ : ∃ v, (ez.getD ⟨.num ctx.current_price, .num ctx.current_price⟩).high.toFloatD
          ctx.current_price = some v := by
        cases h : (ez.getD ⟨.num ctx.current_price, .num ctx.current_price⟩).high with
        | missing => exact ⟨ctx.current_price, rfl⟩
        | null => exact absurd h h2
        | num x => exact ⟨x, rfl⟩
      obtain ⟨sv, hsv⟩ : ∃ v, sl.toFloatD 0 = some v := by
        cases h : sl with
        | missing => exact ⟨0, rfl⟩
        | null => exact absurd h hsl
        | num x => exact ⟨x, rfl⟩
      simp only [directionAndAntiChase, hel, heh, hsv]
      simp only [JListQ.toFloats, seqOpt]
      simp only [apply_ite Prod.fst, apply_ite Prod.snd, apply_ite Draft.confidence,
        apply_ite Draft.prediction, apply_ite Draft.entry_zone, apply_ite Draft.reasoning,
        apply_ite Draft.risk_warning, apply_ite Draft.key_levels, apply_ite Draft.summary,
        apply_ite Draft.take_profit, apply_ite Draft.stop_loss, ite_self]
    simp only [_validate_and_fix_prediction, validateBody, hstage]
  · intro d ctx htp hsl
    have hstage : directionAndAntiChase { d with entry_zone := none } ctx =
        directionAndAntiChase
          { d with entry_zone := some ⟨.num ctx.current_price, .num ctx.current_price⟩ } ctx := by
      obtain ⟨p, cf, ez, sl, tp, rs, rw, kl, sm⟩ := d
      simp only at htp hsl
      obtain ⟨tps, htps⟩ : ∃ l, tp.toFloats = some l := by
        cases h : tp.toFloats with
        | none => exact absurd h htp
        | some l => exact ⟨l, rfl⟩
      obtain ⟨sv, hsv⟩ : ∃ v, sl.toFloatD 0 = some v := by
        cases h : sl with
        | missing => exact ⟨0, rfl⟩
        | null => exact absurd h hsl
        | num x => exact ⟨x, rfl⟩
      simp only [directionAndAntiChase, htps, hsv, Option.getD_none, Option.getD_some]
      simp only [JVal.toFloatD]
      simp only [apply_ite Prod.fst, apply_ite Prod.snd, apply_ite Draft.confidence,
        apply_ite Draft.prediction, apply_ite Draft.entry_zone, apply_ite Draft.reasoning,
        apply_ite Draft.risk_warning, apply_ite Draft.key_levels, apply_ite Draft.summary,
        apply_ite Draft.take_profit, apply_ite Draft.stop_loss, ite_self]
    simp only [_validate_and_fix_prediction, validateBody, hstage]

set_option maxHeartbeats 3200000 in
unseal Rat.add Rat.mul Rat.sub Rat.inv Rat.ofScientific in
/-- Witness for `C7_amended` at concrete drafts derived from scenario B. -/
theorem C7_amended_witness :
    (({ draftB with stop_loss := JVal.null } : Draft).stop_loss = .null ∧
      (draftB.entry_zone.getD ⟨.num ctxBase.current_price, .num ctxBase.current_price⟩).low ≠ .null ∧
      (draftB.entry_zone.getD ⟨.num ctxBase.current_price, .num ctxBase.current_price⟩).high ≠ .null ∧
      draftB.take_profit.toFloats ≠ none ∧ draftB.stop_loss ≠ .null) ∧
    _validate_and_fix_prediction { draftB with stop_loss := JVal.null } ctxBase =
      { draftB with stop_loss := JVal.null } ∧
    _validate_and_fix_prediction { draftB with stop_loss := .missing } ctxBase =
      _validate_and_fix_prediction { draftB with stop_loss := .num 0 } ctxBase ∧
    _validate_and_fix_prediction { draftB with take_profit := .missing } ctxBase =
      _validate_and_fix_prediction { draftB with take_profit := .items [] } ctxBase ∧
    _validate_and_fix_prediction { draftB with entry_zone := none } ctxBase =
      _validate_and_fix_prediction
        { draftB with entry_zone := some ⟨.num ctxBase.current_price, .num ctxBase.current_price⟩ }
        ctxBase :=
  ⟨⟨by decide, by decide, by decide, by decide, by decide⟩,
   C7_amended.1 { draftB with stop_loss := JVal.null } ctxBase (by decide),
   C7_amended.2.1 draftB ctxBase (by decide) (by decide) (by decide),
   C7_amended.2.2.1 draftB ctxBase (by decide) (by decide) (by decide),
   C7_amended.2.2.2 draftB ctxBase (by decide) (by decide)⟩

/-! ## C2: the Accepted-Long / Accepted-Short invariant

Helper lemmas tracing the numeric fields through each validator stage. -/

lemma seqOpt_map_some (l : List ℚ) : seqOpt (l.map some) = some l := by
  induction l with
  | nil => rfl
  | cons x t ih => simp [seqOpt, ih]

lemma toFloats_items_map_some (l : List ℚ) :
    (JListQ.items (l.map some)).toFloats = some l := by
  simp [JListQ.toFloats, seqOpt_map_some]

lemma dropLast_map_some (l : List ℚ) :
    (l.map some).dropLast = l.dropLast.map some := by
  induction l with
  | nil => rfl
  | cons x t ih =>
    cases t with
    | nil => rfl
    | cons y t2 => simp [ih]

lemma smcAnchor_fields (r : Draft) (ctx : Ctx) (loc : Locals) :
    (smcAnchor r ctx loc).prediction = r.prediction ∧
    (smcAnchor r ctx loc).entry_zone = r.entry_zone ∧
    (smcAnchor r ctx loc).stop_loss = r.stop_loss ∧
    (smcAnchor r ctx loc).take_profit = r.take_profit := by
  simp only [smcAnchor]
  split <;> exact ⟨rfl, rfl, rfl, rfl⟩

lemma confidenceCalibrate_fields (r : Draft) (ctx : Ctx) (out : Draft)
    (h : confidenceCalibrate r ctx = .ok out) :
    out.prediction = r.prediction ∧ out.entry_zone = r.entry_zone ∧
    out.stop_loss = r.stop_loss ∧ out.take_profit = r.take_profit := by
  simp only [confidenceCalibrate] at h
  split at h
  · cases h; exact ⟨rfl, rfl, rfl, rfl⟩
  · split at h
    · cases h
    · split at h
      · cases h; exact ⟨rfl, rfl, rfl, rfl⟩
      · split at h
        · cases h; exact ⟨rfl, rfl, rfl, rfl⟩
        · split at h
          · cases h; exact ⟨rfl, rfl, rfl, rfl⟩
          · cases h; exact ⟨rfl, rfl, rfl, rfl⟩

lemma validate_key_levels_fields (r : Draft) (ctx : Ctx) :
    (_validate_key_levels r ctx).prediction = r.prediction ∧
    (_validate_key_levels r ctx).entry_zone = r.entry_zone ∧
    (_validate_key_levels r ctx).stop_loss = r.stop_loss ∧
    (_validate_key_levels r ctx).take_profit = r.take_profit := by
  simp only [_validate_key_levels]
  split
  · exact ⟨rfl, rfl, rfl, rfl⟩
  · split
    · split <;> exact ⟨rfl, rfl, rfl, rfl⟩
    · split
      · split <;> exact ⟨rfl, rfl, rfl, rfl⟩
      · split
        · split <;> exact ⟨rfl, rfl, rfl, rfl⟩
        · split
          · split <;> exact ⟨rfl, rfl, rfl, rfl⟩
          · exact ⟨rfl, rfl, rfl, rfl⟩

lemma sanitize_reasoning_fields (r : Draft) (ctx : Ctx) :
    (_sanitize_reasoning r ctx).prediction = r.prediction ∧
    (_sanitize_reasoning r ctx).entry_zone = r.entry_zone ∧
    (_sanitize_reasoning r ctx).stop_loss = r.stop_loss ∧
    (_sanitize_reasoning r ctx).take_profit = r.take_profit := by
  simp only [_sanitize_reasoning]
  split
  · exact ⟨rfl, rfl, rfl, rfl⟩
  · split <;> split <;> exact ⟨rfl, rfl, rfl, rfl⟩

lemma tp1TouchNotice_fields (r : Draft) (ctx : Ctx) (loc : Locals) (out : Draft)
    (h : tp1TouchNotice r ctx loc = .ok out) :
    out.prediction = r.prediction ∧ out.entry_zone = r.entry_zone ∧
    out.stop_loss = r.stop_loss ∧ out.take_profit = r.take_profit := by
  simp only [tp1TouchNotice] at h
  split at h
  · cases h
  · split at h
    · cases h; exact ⟨rfl, rfl, rfl, rfl⟩
    · split at h
      · split at h
        · cases h; exact ⟨rfl, rfl, rfl, rfl⟩
        · cases h
      · split at h
        · split at h
          · cases h; exact ⟨rfl, rfl, rfl, rfl⟩
          · cases h
        · cases h; exact ⟨rfl, rfl, rfl, rfl⟩

lemma forceTP1_spec (r : Draft) (loc : Locals) (sl t : ℚ) (ts : List ℚ)
    (hsl : r.stop_loss = .num sl) (htps : loc.tps = t :: ts)
    (hrisk : 0 < |(loc.entry_low + loc.entry_high) / 2 - sl|) :
    forceTP1 r loc =
      .ok ({ r with
             take_profit := .items
               (((if loc.is_long then
                    (loc.entry_low + loc.entry_high) / 2 +
                      |(loc.entry_low + loc.entry_high) / 2 - sl|
                  else
                    (loc.entry_low + loc.entry_high) / 2 -
                      |(loc.entry_low + loc.entry_high) / 2 - sl|) :: ts).map some) },
           { loc with
             sl := sl,
             tps := (if loc.is_long then
                       (loc.entry_low + loc.entry_high) / 2 +
                         |(loc.entry_low + loc.entry_high) / 2 - sl|
                     else
                       (loc.entry_low + loc.entry_high) / 2 -
                         |(loc.entry_low + loc.entry_high) / 2 - sl|) :: ts },
           |(loc.entry_low + loc.entry_high) / 2 - sl|,
           (loc.entry_low + loc.entry_high) / 2) := by
  simp only [forceTP1, hsl, JVal.toFloatD]
  rw [if_pos hrisk]
  simp [htps]

lemma lvnGuard_spec (r : Draft) (ctx : Ctx) (loc : Locals) (avg : ℚ) (out : Draft)
    (h : lvnGuard r ctx loc avg = .ok out) (hatr : 0 < ctx.atr) :
    out.prediction = r.prediction ∧ out.entry_zone = r.entry_zone ∧
    out.take_profit = r.take_profit ∧
    (out.stop_loss = r.stop_loss ∨
      ∃ v, out.stop_loss = .num v ∧
        (loc.is_long = true → v < loc.sl) ∧
        (loc.is_long = false → loc.sl < v)) := by
  have hatr' : (if ctx.atr = 0 then avg * 0.01 else ctx.atr) = ctx.atr :=
    if_neg (ne_of_gt hatr)
  cases hlvn : ctx.vpvr_lvn with
  | none =>
    simp only [lvnGuard, hlvn] at h
    cases h
    exact ⟨rfl, rfl, rfl, Or.inl rfl⟩
  | some lvn =>
    simp only [lvnGuard, hlvn, hatr'] at h
    split at h
    · split at h
      · split at h
        · cases h
          refine ⟨rfl, rfl, rfl, Or.inr ⟨_, rfl, ?_, ?_⟩⟩
          · intro hl
            rw [if_pos hl]
            have h1 : min loc.sl lvn ≤ loc.sl := min_le_left _ _
            linarith
          · intro hl
            rw [if_neg (by simp [hl])]
            have h1 : loc.sl ≤ max loc.sl lvn := le_max_left _ _
            linarith
        · cases h
      · cases h
        exact ⟨rfl, rfl, rfl, Or.inl rfl⟩
    · cases h
      exact ⟨rfl, rfl, rfl, Or.inl rfl⟩

lemma map_some_getLast_ex : ∀ (l : List ℚ) (x : ℚ),
    ∃ v, ((x :: l).map some).getLast? = some (some v)
  | [], x => ⟨x, rfl⟩
  | y :: t, x => by
    obtain ⟨v, hv⟩ := map_some_getLast_ex t y
    exact ⟨v, by simpa using hv⟩

lemma rrrCheck_spec (r : Draft) (avg risk : ℚ) (isl : Bool) (t0 : ℚ) (rest : List ℚ)
    (r' : Draft) (b : Bool)
    (ht : r.take_profit = .items ((t0 :: rest).map some))
    (hrisk : 0 < risk)
    (h : rrrCheck r avg risk isl = (r', b)) :
    (r'.prediction = r.prediction ∨ r'.prediction = "震荡") ∧
    r'.entry_zone = r.entry_zone ∧ r'.stop_loss = r.stop_loss ∧
    ∃ t0' rest', r'.take_profit = .items ((t0' :: rest').map some) ∧
      (isl = true → risk ≤ t0 - avg → risk ≤ t0' - avg) ∧
      (isl = false → risk ≤ avg - t0 → risk ≤ avg - t0') := by
  obtain ⟨v, hv⟩ := map_some_getLast_ex rest t0
  have hlast : lastTP r = some v := by
    simp only [lastTP, ht, hv]
  simp only [rrrCheck, hlast] at h
  rw [if_pos hrisk] at h
  by_cases h15 : |v - avg| / risk < 1.5
  · rw [if_pos h15] at h
    by_cases h10 : |v - avg| / risk < 1
    · rw [if_pos h10] at h
      split at h
      · cases h
        exact ⟨Or.inr rfl, rfl, rfl, t0, rest, ht, fun _ hb => hb, fun _ hb => hb⟩
      · cases h
        exact ⟨Or.inr rfl, rfl, rfl, t0, rest, ht, fun _ hb => hb, fun _ hb => hb⟩
    · rw [if_neg h10] at h
      have hset : (setLastTP r (if isl = true then avg + risk * 1.6 else avg - risk * 1.6)).take_profit =
          .items ((((t0 :: rest).dropLast ++
            [if isl = true then avg + risk * 1.6 else avg - risk * 1.6]).map some)) := by
        simp only [setLastTP, ht]
        simp [dropLast_map_some]
      have hsetp : (setLastTP r (if isl = true then avg + risk * 1.6 else avg - risk * 1.6)).prediction =
          r.prediction := by
        simp only [setLastTP, ht]
      have hsete : (setLastTP r (if isl = true then avg + risk * 1.6 else avg - risk * 1.6)).entry_zone =
          r.entry_zone := by
        simp only [setLastTP, ht]
      have hsets : (setLastTP r (if isl = true then avg + risk * 1.6 else avg - risk * 1.6)).stop_loss =
          r.stop_loss := by
        simp only [setLastTP, ht]
      have hsetr : (setLastTP r (if isl = true then avg + risk * 1.6 else avg - risk * 1.6)).reasoning =
          r.reasoning := by
        simp only [setLastTP, ht]
      cases rest with
      | nil =>
        split at h <;> cases h <;>
          refine ⟨Or.inl hsetp, hsete, hsets,
            (if isl = true then avg + risk * 1.6 else avg - risk * 1.6), [],
            by simpa using hset, ?_, ?_⟩
        all_goals
          intro hisl hb
          subst hisl
          first
          | (rw [if_pos rfl]; linarith)
          | (rw [if_neg (by simp : ¬(false = true))]; linarith)
      | cons y t2 =>
        split at h <;> cases h <;>
          exact ⟨Or.inl hsetp, hsete, hsets, t0,
            (y :: t2).dropLast ++ [if isl = true then avg + risk * 1.6 else avg - risk * 1.6],
            by simpa using hset, fun _ hb => hb, fun _ hb => hb⟩
  · rw [if_neg h15] at h
    cases h
    exact ⟨Or.inl rfl, rfl, rfl, t0, rest, ht, fun _ hb => hb, fun _ hb => hb⟩

lemma pickEntries_le (b1 b2 : Bool) (el1 eh1 cp : ℚ) (hle : el1 ≤ eh1) (hcp : 0 < cp) :
    (pickEntries b1 b2 el1 eh1 cp).1 ≤ (pickEntries b1 b2 el1 eh1 cp).2 := by
  simp only [pickEntries]
  split_ifs <;> dsimp only <;> linarith

lemma pickEntries_long_high (b2 : Bool) (el1 eh1 cp : ℚ) (hcp : 0 < cp)
    (hle : el1 ≤ eh1) :
    (pickEntries true b2 el1 eh1 cp).2 ≤ cp * 1.0005 := by
  simp only [pickEntries]
  split_ifs <;> dsimp only <;> first | linarith | simp_all

lemma pickEntries_short_low (el1 eh1 cp : ℚ) (hcp : 0 < cp) (hle : el1 ≤ eh1) :
    cp * 0.9995 ≤ (pickEntries false true el1 eh1 cp).1 := by
  simp only [pickEntries]
  split_ifs <;> dsimp only <;> first | linarith | simp_all

lemma directionAndAntiChase_spec (r0 : Draft) (ctx : Ctx) (r3 : Draft) (loc : Locals)
    (h : directionAndAntiChase r0 ctx = .ok (r3, loc)) :
    r3.prediction =
      (if loc.is_long then "看涨" else if loc.is_short then "看跌" else "震荡") ∧
    r3.entry_zone = some ⟨.num loc.entry_low, .num loc.entry_high⟩ ∧
    r3.stop_loss = .num loc.sl ∧
    r3.take_profit = .items (loc.tps.map some) ∧
    (0 < ctx.current_price → loc.entry_low ≤ loc.entry_high) ∧
    (0 < ctx.current_price → loc.is_long = true →
      loc.entry_high ≤ ctx.current_price * 1.0005) ∧
    (0 < ctx.current_price → loc.is_long = false → loc.is_short = true →
      ctx.current_price * 0.9995 ≤ loc.entry_low) := by
  simp only [directionAndAntiChase] at h
  split at h
  · cases h
  · split at h
    · cases h
    · split at h
      · cases h
      · split at h
        · cases h
        · rw [Except.ok.injEq, Prod.mk.injEq] at h
          obtain ⟨hr, hl⟩ := h
          subst hr
          subst hl
          have hswap : ∀ a b : ℚ, (if a > b then b else a) ≤ (if a > b then a else b) := by
            intro a b
            split_ifs <;> linarith
          refine ⟨rfl, rfl, rfl, rfl, ?_, ?_, ?_⟩
          · intro hcp
            exact pickEntries_le _ _ _ _ _ (hswap _ _) hcp
          · intro hcp hlong
            dsimp only at hlong ⊢
            rw [hlong]
            exact pickEntries_long_high _ _ _ _ hcp (hswap _ _)
          · intro hcp hlong hshort
            dsimp only at hlong hshort ⊢
            rw [hlong, hshort]
            exact pickEntries_short_low _ _ _ hcp (hswap _ _)

lemma fixStopAndTargets_spec (r3 : Draft) (ctx : Ctx) (loc : Locals)
    (s0 : ℚ) (tps0 : List ℚ) (r5 : Draft) (loc' : Locals)
    (hstop : r3.stop_loss = .num s0)
    (htp : r3.take_profit = .items (tps0.map some))
    (h : fixStopAndTargets r3 ctx loc = .ok (r5, loc')) :
    loc'.is_long = loc.is_long ∧ loc'.is_short = loc.is_short ∧
    loc'.entry_low = loc.entry_low ∧ loc'.entry_high = loc.entry_high ∧
    r5.prediction = r3.prediction ∧ r5.entry_zone = r3.entry_zone ∧
    r5.stop_loss = .num loc'.sl ∧
    (0 < ctx.atr → loc.is_long = true → loc'.sl < loc.entry_low) ∧
    (0 < ctx.atr → loc.is_long = false → loc.is_short = true →
      loc.entry_high < loc'.sl) := by
  simp only [fixStopAndTargets, hstop, htp, JVal.toFloatD, toFloats_items_map_some] at h
  split at h
  next hlong =>
    rw [Except.ok.injEq, Prod.mk.injEq] at h
    obtain ⟨hr, hl⟩ := h
    subst hr
    subst hl
    refine ⟨rfl, rfl, rfl, rfl, ?_, ?_, ?_, ?_, ?_⟩
    · split_ifs <;> rfl
    · split_ifs <;> rfl
    · dsimp only
      split_ifs <;> simp [hstop]
    · intro hatr _
      dsimp only
      split_ifs <;> linarith
    · intro _ hlongf _
      rw [hlong] at hlongf
      exact Bool.noConfusion hlongf
  next hlong =>
    split at h
    next hshort =>
      rw [Except.ok.injEq, Prod.mk.injEq] at h
      obtain ⟨hr, hl⟩ := h
      subst hr
      subst hl
      refine ⟨rfl, rfl, rfl, rfl, ?_, ?_, ?_, ?_, ?_⟩
      · split_ifs <;> rfl
      · split_ifs <;> rfl
      · dsimp only
        split_ifs <;> simp [hstop]
      · intro _ hlongt
        exact absurd hlongt hlong
      · intro hatr _ _
        dsimp only
        split_ifs <;> linarith
    next hshort =>
      rw [Except.ok.injEq, Prod.mk.injEq] at h
      obtain ⟨hr, hl⟩ := h
      subst hr
      subst hl
      refine ⟨rfl, rfl, rfl, rfl, rfl, rfl, ?_, ?_, ?_⟩
      · dsimp only
        exact hstop
      · intro _ hlongt
        exact absurd hlongt hlong
      · intro _ _ hshortt
        exact absurd hshortt hshort

lemma tpDistanceClamp_spec (r : Draft) (ctx : Ctx) (loc : Locals) (avg : ℚ)
    (t0 : ℚ) (rest : List ℚ) (m : ℚ)
    (ht : r.take_profit = .items ((t0 :: rest).map some))
    (hatr : 0 < ctx.atr) :
    (tpDistanceClamp r ctx loc avg).prediction = r.prediction ∧
    (tpDistanceClamp r ctx loc avg).entry_zone = r.entry_zone ∧
    (tpDistanceClamp r ctx loc avg).stop_loss = r.stop_loss ∧
    ∃ t0' rest',
      (tpDistanceClamp r ctx loc avg).take_profit = .items ((t0' :: rest').map some) ∧
      (loc.is_long = true → m ≤ t0 - avg → min m (ctx.atr * 3) ≤ t0' - avg) ∧
      (loc.is_long = false → m ≤ avg - t0 → min m (ctx.atr * 3) ≤ avg - t0') := by
  have htf : r.take_profit.toFloats = some (t0 :: rest) := by
    rw [ht]
    exact toFloats_items_map_some _
  simp only [tpDistanceClamp, htf]
  rw [if_pos (show ctx.atr > 0 ∧ (t0 :: rest) ≠ [] from ⟨hatr, by simp⟩)]
  simp only [List.enum_cons, List.map_cons]
  refine ⟨trivial, trivial, trivial, _, _, rfl, ?_, ?_⟩
  · intro hisl hm
    rw [hisl]
    split_ifs with hc hcl
    · have h1 : min m (ctx.atr * 3) ≤ ctx.atr * 3 := min_le_right _ _
      push_cast
      linarith
    · exact absurd rfl hcl
    · have h1 : min m (ctx.atr * 3) ≤ m := min_le_left _ _
      linarith
  · intro hisl hm
    rw [hisl]
    split_ifs with hc hc2
    · exact hc2.elim
    · have h1 : min m (ctx.atr * 3) ≤ ctx.atr * 3 := min_le_right _ _
      push_cast
      linarith
    · have h1 : min m (ctx.atr * 3) ≤ m := min_le_left _ _
      linarith

lemma entryWidthClamp_spec (r : Draft) (ctx : Ctx) (loc : Locals)
    (hez : r.entry_zone = some ⟨.num loc.entry_low, .num loc.entry_high⟩)
    (hle : loc.entry_low ≤ loc.entry_high) (hatr : 0 < ctx.atr) :
    (entryWidthClamp r ctx loc).prediction = r.prediction ∧
    (entryWidthClamp r ctx loc).stop_loss = r.stop_loss ∧
    (entryWidthClamp r ctx loc).take_profit = r.take_profit ∧
    ∃ lo' hi', (entryWidthClamp r ctx loc).entry_zone = some ⟨.num lo', .num hi'⟩ ∧
      loc.entry_low ≤ lo' ∧ lo' ≤ hi' ∧ hi' ≤ loc.entry_high ∧
      ∀ m, (loc.entry_high - loc.entry_low) / 2 < m →
        hi' - (loc.entry_low + loc.entry_high) / 2 < min m (ctx.atr * 3) ∧
        (loc.entry_low + loc.entry_high) / 2 - lo' < min m (ctx.atr * 3) := by
  have habs : |loc.entry_high - loc.entry_low| = loc.entry_high - loc.entry_low :=
    abs_of_nonneg (by linarith)
  simp only [entryWidthClamp, habs]
  split_ifs with hc
  · obtain ⟨hc1, hc2⟩ := hc
    refine ⟨rfl, rfl, rfl, _, _, rfl, by linarith, by linarith, by linarith, ?_⟩
    intro m hm
    constructor <;> (rw [lt_min_iff]; constructor <;> linarith)
  · have hw : loc.entry_high - loc.entry_low ≤ ctx.atr * 2 := by
      by_contra hx
      exact hc ⟨hatr, by linarith⟩
    refine ⟨rfl, rfl, rfl, loc.entry_low, loc.entry_high, hez, le_refl _, hle,
      le_refl _, ?_⟩
    intro m hm
    constructor <;> (rw [lt_min_iff]; constructor <;> linarith)

lemma forceTP1_trace (r : Draft) (loc : Locals) (sl : ℚ)
    (r' : Draft) (loc' : Locals) (risk avg : ℚ)
    (hsl : r.stop_loss = .num sl)
    (hrisk : 0 < |(loc.entry_low + loc.entry_high) / 2 - sl|)
    (h : forceTP1 r loc = .ok (r', loc', risk, avg)) :
    avg = (loc.entry_low + loc.entry_high) / 2 ∧
    risk = |avg - sl| ∧
    loc'.is_long = loc.is_long ∧
    loc'.entry_low = loc.entry_low ∧ loc'.entry_high = loc.entry_high ∧
    loc'.sl = sl ∧
    r'.prediction = r.prediction ∧ r'.entry_zone = r.entry_zone ∧
    r'.stop_loss = r.stop_loss ∧
    ∃ rest, r'.take_profit =
      .items (((if loc.is_long then avg + risk else avg - risk) :: rest).map some) := by
  simp only [forceTP1, hsl, JVal.toFloatD] at h
  rw [if_pos hrisk] at h
  cases htps : loc.tps with
  | nil =>
    simp only [htps] at h
    rw [Except.ok.injEq, Prod.mk.injEq, Prod.mk.injEq, Prod.mk.injEq] at h
    obtain ⟨h1, h2, h3, h4⟩ := h
    subst h4
    subst h3
    subst h2
    subst h1
    exact ⟨rfl, rfl, rfl, rfl, rfl, rfl, rfl, rfl, hsl.symm, _, rfl⟩
  | cons t ts =>
    simp only [htps] at h
    rw [Except.ok.injEq, Prod.mk.injEq, Prod.mk.injEq, Prod.mk.injEq] at h
    obtain ⟨h1, h2, h3, h4⟩ := h
    subst h4
    subst h3
    subst h2
    subst h1
    exact ⟨rfl, rfl, rfl, rfl, rfl, rfl, rfl, rfl, hsl.symm, ts, rfl⟩

lemma tailStages_trace (r7 : Draft) (ctx : Ctx) (loc : Locals) (avg m t7 : ℚ)
    (rest7 : List ℚ) (out : Draft)
    (hatr : 0 < ctx.atr)
    (htp7 : r7.take_profit = .items ((t7 :: rest7).map some))
    (hez7 : r7.entry_zone = some ⟨.num loc.entry_low, .num loc.entry_high⟩)
    (hle : loc.entry_low ≤ loc.entry_high)
    (havg : avg = (loc.entry_low + loc.entry_high) / 2)
    (hm : (loc.entry_high - loc.entry_low) / 2 < m)
    (h : tailStages r7 ctx loc avg = .ok out) :
    out.prediction = r7.prediction ∧
    (out.stop_loss = r7.stop_loss ∨
      ∃ v, out.stop_loss = .num v ∧ (loc.is_long = true → v < loc.sl) ∧
        (loc.is_long = false → loc.sl < v)) ∧
    ∃ lo' hi' t0' rest',
      out.entry_zone = some ⟨.num lo', .num hi'⟩ ∧
      out.take_profit = .items ((t0' :: rest').map some) ∧
      loc.entry_low ≤ lo' ∧ lo' ≤ hi' ∧ hi' ≤ loc.entry_high ∧
      (loc.is_long = true → m ≤ t7 - avg → hi' < t0') ∧
      (loc.is_long = false → m ≤ avg - t7 → t0' < lo') := by
  simp only [tailStages] at h
  split at h
  · cases h
  next r8 heq4 =>
    obtain ⟨hp8, hez8, htp8, hsl8⟩ := lvnGuard_spec r7 ctx loc avg r8 heq4 hatr
    obtain ⟨hp9, hez9, hsl9, htp9⟩ := smcAnchor_fields r8 ctx loc
    split at h
    · cases h
    next r10 heq5 =>
      obtain ⟨hp10, hez10, hsl10, htp10⟩ := tp1TouchNotice_fields _ ctx loc r10 heq5
      have htpr10 : r10.take_profit = .items ((t7 :: rest7).map some) := by
        rw [htp10, htp9, htp8, htp7]
      obtain ⟨hp11, hez11, hsl11, t0', rest', htp11, hupC, hdownC⟩ :=
        tpDistanceClamp_spec r10 ctx loc avg t7 rest7 m htpr10 hatr
      have hezr11 : (tpDistanceClamp r10 ctx loc avg).entry_zone =
          some ⟨.num loc.entry_low, .num loc.entry_high⟩ := by
        rw [hez11, hez10, hez9, hez8, hez7]
      obtain ⟨hp12, hsl12, htp12, lo', hi', hez12, hlo'1, hlohi', hhi'1, hbound⟩ :=
        entryWidthClamp_spec (tpDistanceClamp r10 ctx loc avg) ctx loc hezr11 hle hatr
      split at h
      · cases h
      next r13 heq6 =>
        obtain ⟨hp13, hez13, hsl13, htp13⟩ := confidenceCalibrate_fields _ ctx r13 heq6
        rw [Except.ok.injEq] at h
        subst h
        obtain ⟨hpV, hezV, hslV, htpV⟩ := validate_key_levels_fields r13 ctx
        obtain ⟨hpS, hezS, hslS, htpS⟩ :=
          sanitize_reasoning_fields (_validate_key_levels r13 ctx) ctx
        refine ⟨?_, ?_, lo', hi', t0', rest', ?_, ?_, hlo'1, hlohi', hhi'1, ?_, ?_⟩
        · rw [hpS, hpV, hp13, hp12, hp11, hp10, hp9, hp8]
        · rw [hslS, hslV, hsl13, hsl12, hsl11, hsl10, hsl9]
          exact hsl8
        · rw [hezS, hezV, hez13]
          exact hez12
        · rw [htpS, htpV, htp13, htp12]
          exact htp11
        · intro hl hmt
          have h1 := hupC hl hmt
          have h2 := (hbound m hm).1
          rw [← havg] at h2
          linarith
        · intro hl hmt
          have h1 := hdownC hl hmt
          have h2 := (hbound m hm).2
          rw [← havg] at h2
          linarith

set_option maxHeartbeats 1600000 in
/-- C2 (amended): the claimed Accepted-Long invariant fails as stated (no
monotone target ladder, and the RRR gate is 1.0 on the **last** target, not
1.2 on the first — see the counterexample), but a corrected directional
invariant does hold on every run of `_validate_and_fix_prediction` that
completes without an internal exception (`validateBody = .ok`), given a
positive current price and a positive ATR: a 看涨 (long) output carries a
numeric entry zone `[lo, hi]`, stop `s` and a non-empty numeric target list
headed by `t0` with `s < lo ≤ hi < t0` and `hi ≤ current_price × 1.0005`; a
看跌 (short) output satisfies the mirrored
`t0 < lo ≤ hi < s` and `current_price × 0.9995 ≤ lo`. -/
theorem C2_amended (d : Draft) (ctx : Ctx) (out : Draft)
    (hok : validateBody d ctx = .ok out)
    (hcp : 0 < ctx.current_price) (hatr : 0 < ctx.atr) :
    _validate_and_fix_prediction d ctx = out ∧
    (out.prediction = "看涨" →
      ∃ lo hi s t0 rest, out.entry_zone = some ⟨.num lo, .num hi⟩ ∧
        out.stop_loss = .num s ∧
        out.take_profit = .items ((t0 :: rest).map some) ∧
        s < lo ∧ lo ≤ hi ∧ hi < t0 ∧ hi ≤ ctx.current_price * 1.0005) ∧
    (out.prediction = "看跌" →
      ∃ lo hi s t0 rest, out.entry_zone = some ⟨.num lo, .num hi⟩ ∧
        out.stop_loss = .num s ∧
        out.take_profit = .items ((t0 :: rest).map some) ∧
        hi < s ∧ lo ≤ hi ∧ t0 < lo ∧ ctx.current_price * 0.9995 ≤ lo) := by
  have hmain : _validate_and_fix_prediction d ctx = out := by
    simp only [_validate_and_fix_prediction, hok]
  refine ⟨hmain, ?_⟩
  simp only [validateBody] at hok
  split at hok
  · cases hok
  next rl heq1 =>
    obtain ⟨hpred3, hez3, hsl3, htp3, hle3, hlongB, hshortB⟩ :=
      directionAndAntiChase_spec d ctx rl.1 rl.2 (by rw [heq1])
    have hlehl : rl.2.entry_low ≤ rl.2.entry_high := hle3 hcp
    by_cases hneutral : (!rl.2.is_long && !rl.2.is_short) = true
    · rw [if_pos hneutral] at hok
      rw [Except.ok.injEq] at hok
      subst hok
      obtain ⟨hL, hS⟩ : rl.2.is_long = false ∧ rl.2.is_short = false := by
        constructor
        · cases hx : rl.2.is_long
          · rfl
          · rw [hx] at hneutral
            exact absurd hneutral (by simp)
        · cases hx : rl.2.is_short
          · rfl
          · rw [hx] at hneutral
            exact absurd hneutral (by simp)
      rw [hL, hS] at hpred3
      rw [if_neg (by decide), if_neg (by decide)] at hpred3
      constructor
      · intro hk
        rw [hpred3] at hk
        exact absurd hk (by decide)
      · intro hk
        rw [hpred3] at hk
        exact absurd hk (by decide)
    · rw [if_neg hneutral] at hok
      have hdirW : rl.2.is_long = true ∨ (rl.2.is_long = false ∧ rl.2.is_short = true) := by
        cases hx : rl.2.is_long
        · cases hy : rl.2.is_short
          · exact absurd (by rw [hx, hy]; rfl) hneutral
          · exact Or.inr ⟨rfl, rfl⟩
        · exact Or.inl rfl
      simp only [afterDirection] at hok
      split at hok
      · cases hok
      next rl4 heq2 =>
        obtain ⟨hQl, hQs, hQlo, hQhi, hQp, hQe, hQsl, hQlong, hQshort⟩ :=
          fixStopAndTargets_spec rl.1 ctx rl.2 rl.2.sl rl.2.tps rl4.1 rl4.2
            hsl3 htp3 (by rw [heq2])
        split at hok
        · cases hok
        next rl5 heq3 =>
          obtain ⟨r6, loc6, risk, avg⟩ := rl5
          dsimp only at hok
          have hriskabs : 0 < |(rl4.2.entry_low + rl4.2.entry_high) / 2 - rl4.2.sl| := by
            rw [hQlo, hQhi, abs_pos]
            rcases hdirW with hL | ⟨hL, hS⟩
            · have h2 := hQlong hatr hL
              exact ne_of_gt (by linarith)
            · have h2 := hQshort hatr hL hS
              exact ne_of_lt (by linarith)
          obtain ⟨havg, hrisk, hTl, hTlo, hThi, hTsl, hTp, hTe, hTs, restF, hTtp⟩ :=
            forceTP1_trace rl4.1 rl4.2 rl4.2.sl r6 loc6 risk avg hQsl hriskabs heq3
          have hl6 : loc6.is_long = rl.2.is_long := by rw [hTl, hQl]
          have hlo6 : loc6.entry_low = rl.2.entry_low := by rw [hTlo, hQlo]
          have hhi6 : loc6.entry_high = rl.2.entry_high := by rw [hThi, hQhi]
          have havgR : avg = (rl.2.entry_low + rl.2.entry_high) / 2 := by
            rw [havg, hQlo, hQhi]
          have hriskwR : (rl.2.entry_high - rl.2.entry_low) / 2 < risk := by
            rw [hrisk, havg, hQlo, hQhi]
            rcases hdirW with hL | ⟨hL, hS⟩
            · have h2 := hQlong hatr hL
              rw [abs_of_pos (by linarith)]
              linarith
            · have h2 := hQshort hatr hL hS
              rw [abs_of_neg (by linarith)]
              linarith
          have hriskpos : 0 < risk := by linarith
          rcases hrr : rrrCheck r6 avg risk loc6.is_long with ⟨r7, b7⟩
          obtain ⟨hP7, hE7, hS7, t7, rest7, hTP7, hup7, hdown7⟩ :=
            rrrCheck_spec r6 avg risk loc6.is_long _ restF r7 b7 hTtp hriskpos hrr
          rw [hrr] at hok
          dsimp only at hok
          have hheadL : rl.2.is_long = true → risk ≤ t7 - avg := fun hL =>
            hup7 (by rw [hl6, hL]) (by rw [hQl, hL, if_pos rfl]; linarith)
          have hheadS : rl.2.is_long = false → risk ≤ avg - t7 := fun hL =>
            hdown7 (by rw [hl6, hL]) (by rw [hQl, hL, if_neg (by decide)]; linarith)
          have hslL : rl.2.is_long = true → rl4.2.sl < rl.2.entry_low := fun hL =>
            hQlong hatr hL
          have hslS2 : rl.2.is_long = false → rl.2.is_short = true →
              rl.2.entry_high < rl4.2.sl := fun hL hS => hQshort hatr hL hS
          have hdir7 : (r7.prediction = "看涨" → rl.2.is_long = true) ∧
              (r7.prediction = "看跌" → rl.2.is_long = false ∧ rl.2.is_short = true) := by
            rcases hP7 with hP | hP
            · have hpred : r7.prediction =
                  (if rl.2.is_long = true then "看涨"
                   else if rl.2.is_short = true then "看跌" else "震荡") := by
                rw [hP, hTp, hQp, hpred3]
              constructor
              · intro hk
                cases hx : rl.2.is_long
                · exfalso
                  rw [hpred, hx] at hk
                  cases hy : rl.2.is_short
                  · rw [hy, if_neg (by decide), if_neg (by decide)] at hk
                    exact absurd hk (by decide)
                  · rw [hy, if_neg (by decide), if_pos rfl] at hk
                    exact absurd hk (by decide)
                · exact rfl
              · intro hk
                cases hx : rl.2.is_long
                · refine ⟨rfl, ?_⟩
                  cases hy : rl.2.is_short
                  · exfalso
                    rw [hpred, hx, hy, if_neg (by decide), if_neg (by decide)] at hk
                    exact absurd hk (by decide)
                  · exact rfl
                · exfalso
                  rw [hpred, hx, if_pos rfl] at hk
                  exact absurd hk (by decide)
            · constructor
              · intro hk
                rw [hP] at hk
                exact absurd hk (by decide)
              · intro hk
                rw [hP] at hk
                exact absurd hk (by decide)
          by_cases hb : b7 = true
          · rw [if_pos hb] at hok
            rw [Except.ok.injEq] at hok
            subst hok
            constructor
            · intro hk
              have hL := hdir7.1 hk
              have hhead := hheadL hL
              refine ⟨rl.2.entry_low, rl.2.entry_high, rl4.2.sl, t7, rest7,
                by rw [hE7, hTe, hQe, hez3], by rw [hS7, hTs, hQsl], hTP7,
                hslL hL, hlehl, by linarith, hlongB hcp hL⟩
            · intro hk
              obtain ⟨hL, hS⟩ := hdir7.2 hk
              have hhead := hheadS hL
              refine ⟨rl.2.entry_low, rl.2.entry_high, rl4.2.sl, t7, rest7,
                by rw [hE7, hTe, hQe, hez3], by rw [hS7, hTs, hQsl], hTP7,
                hslS2 hL hS, hlehl, by linarith, hshortB hcp hL hS⟩
          · rw [if_neg hb] at hok
            have hezArg : r7.entry_zone =
                some ⟨.num loc6.entry_low, .num loc6.entry_high⟩ := by
              rw [hE7, hTe, hQe, hez3, hlo6, hhi6]
            have hleArg : loc6.entry_low ≤ loc6.entry_high := by
              rw [hlo6, hhi6]
              exact hlehl
            have havg6 : avg = (loc6.entry_low + loc6.entry_high) / 2 := by
              rw [hlo6, hhi6, havg, hQlo, hQhi]
            have hmArg : (loc6.entry_high - loc6.entry_low) / 2 < risk := by
              rw [hlo6, hhi6]
              exact hriskwR
            obtain ⟨hPredT, hStopT, lo', hi', t0', rest'', hezO, htpO, hloA,
                hlohiA, hhiA, hLT, hST⟩ :=
              tailStages_trace r7 ctx loc6 avg risk t7 rest7 out hatr hTP7
                hezArg hleArg havg6 hmArg hok
            have hloR : rl.2.entry_low ≤ lo' := by
              rw [← hlo6]
              exact hloA
            have hhiR : hi' ≤ rl.2.entry_high := by
              rw [← hhi6]
              exact hhiA
            constructor
            · intro hk
              have hk7 : r7.prediction = "看涨" := by
                rw [← hPredT]
                exact hk
              have hL := hdir7.1 hk7
              have hhead := hheadL hL
              have hl6t : loc6.is_long = true := by rw [hl6, hL]
              have hhiT := hLT hl6t hhead
              have hcpB : hi' ≤ ctx.current_price * 1.0005 := by
                have := hlongB hcp hL
                linarith
              rcases hStopT with hsO | ⟨v, hsO, hvl, _⟩
              · refine ⟨lo', hi', rl4.2.sl, t0', rest'', hezO, ?_, htpO, ?_,
                  hlohiA, hhiT, hcpB⟩
                · rw [hsO, hS7, hTs, hQsl]
                · have := hslL hL
                  linarith
              · refine ⟨lo', hi', v, t0', rest'', hezO, hsO, htpO, ?_,
                  hlohiA, hhiT, hcpB⟩
                have hv := hvl hl6t
                rw [hTsl] at hv
                have := hslL hL
                linarith
            · intro hk
              have hk7 : r7.prediction = "看跌" := by
                rw [← hPredT]
                exact hk
              obtain ⟨hL, hS⟩ := hdir7.2 hk7
              have hhead := hheadS hL
              have hl6f : loc6.is_long = false := by rw [hl6, hL]
              have htT := hST hl6f hhead
              have hcpB : ctx.current_price * 0.9995 ≤ lo' := by
                have := hshortB hcp hL hS
                linarith
              rcases hStopT with hsO | ⟨v, hsO, _, hvs⟩
              · refine ⟨lo', hi', rl4.2.sl, t0', rest'', hezO, ?_, htpO, ?_,
                  hlohiA, htT, hcpB⟩
                · rw [hsO, hS7, hTs, hQsl]
                · have := hslS2 hL hS
                  linarith
              · refine ⟨lo', hi', v, t0', rest'', hezO, hsO, htpO, ?_,
                  hlohiA, htT, hcpB⟩
                have hv := hvs hl6f
                rw [hTsl] at hv
                have := hslS2 hL hS
                linarith

set_option maxHeartbeats 3200000 in
unseal Rat.add Rat.mul Rat.sub Rat.inv Rat.ofScientific in
/-- Counterexample to C2: scenario B with targets [103.5, 50] is accepted as a
long (看涨) recommendation whose final target list is [106, 50] — the claimed
monotone ladder `take_profit[0] ≤ take_profit[1]` fails (the 1:1 head
overwrite and the last-target RRR gate never compare adjacent targets). -/
theorem C2_counterexample :
    (_validate_and_fix_prediction draftTwoTargets ctxBase).prediction = "看涨" ∧
    (_validate_and_fix_prediction draftTwoTargets ctxBase).take_profit =
      .items [some 106, some 50] ∧
    ¬((106 : ℚ) ≤ 50) := by
  refine ⟨by decide, by decide, by decide⟩

set_option maxHeartbeats 3200000 in
unseal Rat.add Rat.mul Rat.sub Rat.inv Rat.ofScientific in
/-- Witness for the amended C2 at scenario B with a unit ATR: the run completes
without exception, so the corrected directional invariant applies to it. -/
theorem C2_amended_witness :
    _validate_and_fix_prediction draftB ctxAtr1 =
      _validate_and_fix_prediction draftB ctxAtr1 ∧
    ((_validate_and_fix_prediction draftB ctxAtr1).prediction = "看涨" →
      ∃ lo hi s t0 rest,
        (_validate_and_fix_prediction draftB ctxAtr1).entry_zone =
          some ⟨.num lo, .num hi⟩ ∧
        (_validate_and_fix_prediction draftB ctxAtr1).stop_loss = .num s ∧
        (_validate_and_fix_prediction draftB ctxAtr1).take_profit =
          .items ((t0 :: rest).map some) ∧
        s < lo ∧ lo ≤ hi ∧ hi < t0 ∧ hi ≤ ctxAtr1.current_price * 1.0005) ∧
    ((_validate_and_fix_prediction draftB ctxAtr1).prediction = "看跌" →
      ∃ lo hi s t0 rest,
        (_validate_and_fix_prediction draftB ctxAtr1).entry_zone =
          some ⟨.num lo, .num hi⟩ ∧
        (_validate_and_fix_prediction draftB ctxAtr1).stop_loss = .num s ∧
        (_validate_and_fix_prediction draftB ctxAtr1).take_profit =
          .items ((t0 :: rest).map some) ∧
        hi < s ∧ lo ≤ hi ∧ t0 < lo ∧ ctxAtr1.current_price * 0.9995 ≤ lo) :=
  C2_amended draftB ctxAtr1 (_validate_and_fix_prediction draftB ctxAtr1)
    (by decide) (by decide) (by decide)

end AIPD
